import Mathlib

/-!
Verification development for the Channel-Dissector-AI repository.

The embedding covers, translated from the TypeScript sources:
  - the JSON sanitizer cleanJson and the repairing parser safeParse
    (services file, src/unnamed/part_000, lines 5-83);
  - the graph sanitization pass of analyzeChannelContent (lines 283-295)
    together with the prompt orchestration of the four model calls;
  - the page controller of App.tsx: handleAnalyze, handleGeneratePresentation,
    handleExport, handleImport, startProgressSimulation;
  - the link filtering of components/ForceGraph.tsx;
  - generateSlideImage (lines 415-441).

Host-language builtins that the code calls (JSON.parse, JSON.stringify,
String.prototype.trim, parseInt, the regexes of cleanJson, and the smol-toml
stringify/parse pair) are modelled explicitly below, next to the code that
uses them.  JavaScript numbers appearing inside parsed JSON are modelled by
the integer part of their literal; none of the verified claims depends on
fractional or exponent parts.
-/

/-! ### JavaScript character classes and trim -/

/-- JavaScript whitespace, as matched by the regex class backslash-s and by
String.prototype.trim: space, tab, line and page breaks and the common
unicode space characters. -/
def jsWsChar (c : Char) : Bool :=
  c = ' ' || c = '\t' || c = '\n' || c = '\r' || c = '\x0b' || c = '\x0c' ||
  c = '\u00A0' || c = '\uFEFF' || c = '\u2028' || c = '\u2029'

/-- Whitespace accepted by JSON.parse between tokens: space, tab, newline,
carriage return (RFC 8259). -/
def jsonWsChar (c : Char) : Bool :=
  c = ' ' || c = '\t' || c = '\n' || c = '\r'

/-- Decimal digit, the regex class backslash-d. -/
def isDigitChar (c : Char) : Bool :=
  '0' ≤ c && c ≤ '9'

/-- String.prototype.trim on the character list: strip leading and trailing
JavaScript whitespace. -/
def jsTrim (cs : List Char) : List Char :=
  ((cs.dropWhile jsWsChar).reverse.dropWhile jsWsChar).reverse

/-! ### A model of JSON.parse

JSON values as produced by JSON.parse.  Object member lists keep every parsed
member in source order; duplicate keys are resolved at lookup time by taking
the last binding, as JSON.parse does. -/

inductive JsVal where
  | jnull
  | jbool (b : Bool)
  | jnum (n : Int)
  | jstr (s : String)
  | jarr (elems : List JsVal)
  | jobj (members : List (String × JsVal))

/-- Value of a hexadecimal digit. -/
def hexVal (c : Char) : Option Nat :=
  if '0' ≤ c ∧ c ≤ '9' then some (c.toNat - 48)
  else if 'a' ≤ c ∧ c ≤ 'f' then some (c.toNat - 87)
  else if 'A' ≤ c ∧ c ≤ 'F' then some (c.toNat - 55)
  else none

/-- Fold a digit list into the natural number it denotes. -/
def digitsToNat (ds : List Char) : Nat :=
  ds.foldl (fun a c => a * 10 + (c.toNat - 48)) 0

/-- Parse the body of a JSON string literal, after the opening quote:
escapes as in RFC 8259, raw control characters rejected.  Returns the decoded
string and the input after the closing quote. -/
def parseJStringAux (acc : List Char) : List Char → Option (String × List Char)
  | '"' :: rest => some (⟨acc.reverse⟩, rest)
  | '\\' :: 'u' :: a :: b :: c :: d :: rest =>
    match hexVal a, hexVal b, hexVal c, hexVal d with
    | some x, some y, some z, some w =>
      parseJStringAux (Char.ofNat (((x * 16 + y) * 16 + z) * 16 + w) :: acc) rest
    | _, _, _, _ => none
  | '\\' :: e :: rest =>
    if e = '"' then parseJStringAux ('"' :: acc) rest
    else if e = '\\' then parseJStringAux ('\\' :: acc) rest
    else if e = '/' then parseJStringAux ('/' :: acc) rest
    else if e = 'b' then parseJStringAux ('\x08' :: acc) rest
    else if e = 'f' then parseJStringAux ('\x0c' :: acc) rest
    else if e = 'n' then parseJStringAux ('\n' :: acc) rest
    else if e = 'r' then parseJStringAux ('\r' :: acc) rest
    else if e = 't' then parseJStringAux ('\t' :: acc) rest
    else none
  | c :: rest =>
    if c.toNat < 32 then none else parseJStringAux (c :: acc) rest
  | [] => none

/-- Parse a JSON number literal.  The full grammar (sign, integer part
without leading zeros, optional fraction and exponent) is checked; the
returned value is the signed integer part of the literal. -/
def parseJNumber (cs : List Char) : Option (Int × List Char) :=
  let sign : Bool × List Char :=
    match cs with
    | '-' :: r => (true, r)
    | _ => (false, cs)
  let neg := sign.1
  let cs1 := sign.2
  let ds := cs1.takeWhile isDigitChar
  let cs2 := cs1.dropWhile isDigitChar
  if ds = [] then none
  else if 1 < ds.length ∧ ds.head? = some '0' then none
  else
    let afterFrac : Option (List Char) :=
      match cs2 with
      | '.' :: r =>
        if r.takeWhile isDigitChar = [] then none else some (r.dropWhile isDigitChar)
      | _ => some cs2
    match afterFrac with
    | none => none
    | some cs3 =>
      let afterExp : Option (List Char) :=
        match cs3 with
        | 'e' :: r | 'E' :: r =>
          let r1 := match r with
            | '+' :: r2 => r2
            | '-' :: r2 => r2
            | _ => r
          if r1.takeWhile isDigitChar = [] then none else some (r1.dropWhile isDigitChar)
        | _ => some cs3
      match afterExp with
      | none => none
      | some cs4 =>
        let m : Int := (digitsToNat ds : Int)
        some (if neg then -m else m, cs4)

mutual

/-- Parse one JSON value (leading whitespace allowed), structural on fuel. -/
def parseJValue : Nat → List Char → Option (JsVal × List Char)
  | 0, _ => none
  | fuel + 1, cs =>
    match cs.dropWhile jsonWsChar with
    | 'n' :: 'u' :: 'l' :: 'l' :: r => some (.jnull, r)
    | 't' :: 'r' :: 'u' :: 'e' :: r => some (.jbool true, r)
    | 'f' :: 'a' :: 'l' :: 's' :: 'e' :: r => some (.jbool false, r)
    | '"' :: r => (parseJStringAux [] r).map (fun p => (.jstr p.1, p.2))
    | '[' :: r =>
      match r.dropWhile jsonWsChar with
      | ']' :: r2 => some (.jarr [], r2)
      | r2 => (parseJElems fuel r2).map (fun p => (.jarr p.1, p.2))
    | '{' :: r =>
      match r.dropWhile jsonWsChar with
      | '}' :: r2 => some (.jobj [], r2)
      | r2 => (parseJFields fuel r2).map (fun p => (.jobj p.1, p.2))
    | c :: r =>
      if c = '-' ∨ isDigitChar c then
        (parseJNumber (c :: r)).map (fun p => (.jnum p.1, p.2))
      else none
    | [] => none

/-- Parse one or more comma-separated array elements up to the closing
bracket (trailing commas rejected, as JSON.parse does). -/
def parseJElems : Nat → List Char → Option (List JsVal × List Char)
  | 0, _ => none
  | fuel + 1, cs =>
    match parseJValue fuel cs with
    | none => none
    | some (v, r) =>
      match r.dropWhile jsonWsChar with
      | ',' :: r2 => (parseJElems fuel r2).map (fun p => (v :: p.1, p.2))
      | ']' :: r2 => some ([v], r2)
      | _ => none

/-- Parse one or more comma-separated object members up to the closing
brace. -/
def parseJFields : Nat → List Char → Option (List (String × JsVal) × List Char)
  | 0, _ => none
  | fuel + 1, cs =>
    match cs.dropWhile jsonWsChar with
    | '"' :: r =>
      match parseJStringAux [] r with
      | none => none
      | some (key, r1) =>
        match r1.dropWhile jsonWsChar with
        | ':' :: r2 =>
          match parseJValue fuel r2 with
          | none => none
          | some (v, r3) =>
            match r3.dropWhile jsonWsChar with
            | ',' :: r4 => (parseJFields fuel r4).map (fun p => ((key, v) :: p.1, p.2))
            | '}' :: r4 => some ([(key, v)], r4)
            | _ => none
        | _ => none
    | _ => none

end

/-- Model of JSON.parse: some value on success, none where JSON.parse
throws a SyntaxError. -/
def jsonParse (s : String) : Option JsVal :=
  match parseJValue (2 * s.data.length + 2) s.data with
  | some (v, r) => if r.dropWhile jsonWsChar = [] then some v else none
  | none => none

/-- JSON.parse succeeds on the string. -/
def jsonValid (s : String) : Bool :=
  (jsonParse s).isSome

/-! ### The sanitizer cleanJson (services file, lines 5-23)

Each global regex replace of cleanJson is modelled by a left-to-right scan
that, exactly like the JavaScript engine, tries a match at every position and
continues after the replaced text on success. -/

/-- The seven characters of the opening json code fence. -/
def fenceJsonChars : List Char := ['`', '`', '`', 'j', 's', 'o', 'n']

/-- The three backticks of a bare code fence. -/
def fenceChars : List Char := ['`', '`', '`']

/-- Does the second list start with the first one. -/
def listStartsWith : List Char → List Char → Bool
  | [], _ => true
  | _ :: _, [] => false
  | p :: ps, c :: cs => p = c && listStartsWith ps cs

/-- The replace of trailing-fence regex (whitespace then three backticks,
anchored at the end): removed when present, identity otherwise. -/
def stripCloseFence (cs : List Char) : List Char :=
  let r := cs.reverse
  if listStartsWith fenceChars r then ((r.drop 3).dropWhile jsWsChar).reverse else cs

/-- One step, from the right, of the global replace of
comma-whitespace-closer with the closer alone.  For the suffix s already
processed, the accumulator carries the replaced form of s together with,
when s begins with whitespace followed by the closer, the replaced form of
s with that whitespace-closer head collapsed to the closer (the regex
engine continues there after consuming a match).  A right fold with this
step walks the match positions left to right exactly as the JavaScript
engine does, consuming each non-overlapping match. -/
def collapseStep (close : Char) (c : Char) (acc : List Char × Option (List Char)) :
    List Char × Option (List Char) :=
  let t :=
    if c = ',' then
      match acc.2 with
      | some x => x
      | none => c :: acc.1
    else c :: acc.1
  let m :=
    if c = close then some (close :: acc.1)
    else if jsWsChar c then acc.2
    else none
  (t, m)

/-- Global replace of comma-whitespace-closer with the closer alone, the
two trailing-comma regexes of cleanJson (close is the closing brace for the
first pass and the closing bracket for the second). -/
def collapseCommaClose (close : Char) (cs : List Char) : List Char :=
  (cs.foldr (collapseStep close) ([], none)).1

/-- One step, from the right, of the number-capping replace.  For the
processed suffix s the accumulator carries: its replaced form, the length
of its leading digit run, the replaced form of s without that digit run,
and, when s begins with whitespace and then ten or more digits, the
replaced form of what follows those digits (where the engine continues
after a match). -/
structure CapSt where
  t : List Char
  dcount : Nat
  dAfter : List Char
  wsd : Option (List Char)

/-- The fold step for the number-capping replace. -/
def capStep (c : Char) (st : CapSt) : CapSt :=
  let t :=
    if c = ':' then
      match st.wsd with
      | some x => ':' :: ' ' :: '1' :: '0' :: x
      | none => c :: st.t
    else c :: st.t
  let dcount := if isDigitChar c then st.dcount + 1 else 0
  let dAfter := if isDigitChar c then st.dAfter else t
  let wsd :=
    if isDigitChar c then (if 10 ≤ st.dcount + 1 then some st.dAfter else none)
    else if jsWsChar c then st.wsd
    else none
  ⟨t, dcount, dAfter, wsd⟩

/-- Global replace of colon-whitespace-(ten or more digits) with colon,
space, one, zero: the number-capping regex of cleanJson. -/
def capBigNumbers (cs : List Char) : List Char :=
  (cs.foldr capStep ⟨[], 0, [], none⟩).t

/-- cleanJson (services file, lines 5-23): trim, strip a markdown code
fence, collapse trailing commas before closers, cap ten-or-more-digit
numbers after a colon. -/
def cleanJson (text : String) : String :=
  let cleaned := jsTrim text.data
  let cleaned :=
    if listStartsWith fenceJsonChars cleaned then
      stripCloseFence ((cleaned.drop 7).dropWhile jsWsChar)
    else if listStartsWith fenceChars cleaned then
      stripCloseFence ((cleaned.drop 3).dropWhile jsWsChar)
    else cleaned
  let cleaned := collapseCommaClose '}' cleaned
  let cleaned := collapseCommaClose ']' cleaned
  let cleaned := capBigNumbers cleaned
  ⟨cleaned⟩

/-! ### The repairing parser safeParse (services file, lines 26-83) -/

/-- State of the repair scan of safeParse: the expected closers (top of the
stack first, as the code pops from the end of its array), the in-string flag
and the escape flag. -/
structure ScanSt where
  stack : List Char
  inString : Bool
  escape : Bool
deriving DecidableEq

/-- One character of the repair scan, exactly as in the loop body of
safeParse: the quote toggle happens first, the bracket handling reads the
updated in-string flag, a closer pops only a matching top, and the escape
flag is recomputed last. -/
def scanStep (st : ScanSt) (c : Char) : ScanSt :=
  let inStr := if c = '"' ∧ ¬st.escape then !st.inString else st.inString
  let stack :=
    if inStr then st.stack
    else if c = '{' then '}' :: st.stack
    else if c = '[' then ']' :: st.stack
    else if c = '}' ∨ c = ']' then
      match st.stack with
      | top :: rest => if top = c then rest else st.stack
      | [] => st.stack
    else st.stack
  let esc := if c = '\\' then !st.escape else false
  ⟨stack, inStr, esc⟩

/-- The full scan of safeParse over a character list. -/
def scanChars (cs : List Char) : ScanSt :=
  cs.foldl scanStep ⟨[], false, false⟩

/-- Step one of the repair: append a closing quote when the quote count is
odd and the text does not end in backslash-quote (lines 33-39). -/
def quoteFixed (cs : List Char) : List Char :=
  let qc := cs.count '"'
  let lastEsc : Bool :=
    match cs.reverse with
    | '"' :: '\\' :: _ => true
    | _ => false
  if qc % 2 ≠ 0 ∧ ¬lastEsc then cs ++ ['"'] else cs

/-- The repaired text built by safeParse: trim, fix an unclosed string,
append the missing closers computed by the scan (popped from the top, so the
stack list is appended as is). -/
def repairChars (s : String) : List Char :=
  let t := quoteFixed (jsTrim s.data)
  t ++ (scanChars t).stack

/-- The repaired text as a string. -/
def repairStr (s : String) : String := ⟨repairChars s⟩

/-- safeParse (services file, lines 26-83).  A parse error is identified by
the string whose JSON.parse raised it, so the error branch returning the
input string itself models rethrowing the original error of the first
JSON.parse, as opposed to the error of the reparse (which would carry the
repaired string). -/
def safeParseVal (s : String) : Except String JsVal :=
  match jsonParse s with
  | some v => .ok v
  | none =>
    match jsonParse (repairStr s) with
    | some v => .ok v
    | none => .error s

/-- The successive strings on which safeParse invokes JSON.parse. -/
def safeParseAttempts (s : String) : List String :=
  match jsonParse s with
  | some _ => [s]
  | none => [s, repairStr s]

/-! ### JavaScript string conversion and parseInt -/

/-- A decimal digit character. -/
def digitChar (n : Nat) : Char := Char.ofNat (48 + n)

/-- Decimal digits of a natural number, most significant first (fuel-based,
any fuel above the number itself is enough). -/
def natToCharsGo : Nat → Nat → List Char → List Char
  | 0, _, acc => acc
  | fuel + 1, n, acc =>
    if n < 10 then digitChar n :: acc
    else natToCharsGo fuel (n / 10) (digitChar (n % 10) :: acc)

/-- Decimal digits of a natural number. -/
def natToChars (n : Nat) : List Char := natToCharsGo (n + 1) n []

/-- Decimal notation of an integer. -/
def intToChars (n : Int) : List Char :=
  if n < 0 then '-' :: natToChars (-n).toNat else natToChars n.toNat

/-- Decimal notation of an integer, as a string. -/
def intDecStr (n : Int) : String := ⟨intToChars n⟩

mutual

/-- Elements of an array under the JavaScript array-to-string conversion:
null renders empty, nested arrays are joined recursively. -/
def jsArrElem : JsVal → String
  | .jnull => ""
  | .jbool true => "true"
  | .jbool false => "false"
  | .jnum n => intDecStr n
  | .jstr s => s
  | .jarr xs => jsArrJoin xs
  | .jobj _ => "[object Object]"

/-- Comma join of the converted array elements. -/
def jsArrJoin : List JsVal → String
  | [] => ""
  | [x] => jsArrElem x
  | x :: xs => jsArrElem x ++ "," ++ jsArrJoin xs

end

/-- The JavaScript ToString conversion on a parsed JSON value, as applied by
parseInt to its argument. -/
def jsToString : JsVal → String
  | .jnull => "null"
  | .jbool true => "true"
  | .jbool false => "false"
  | .jnum n => intDecStr n
  | .jstr s => s
  | .jarr xs => jsArrJoin xs
  | .jobj _ => "[object Object]"

/-- parseInt on a character list: skip leading whitespace, read an optional
sign, then either a 0x-prefixed hexadecimal run or a decimal digit run; none
models NaN (no digit read). -/
def parseIntChars (cs0 : List Char) : Option Int :=
  let cs := cs0.dropWhile jsWsChar
  let sign : Bool × List Char :=
    match cs with
    | '-' :: r => (true, r)
    | '+' :: r => (false, r)
    | _ => (false, cs)
  let mag : Option Nat :=
    match sign.2 with
    | '0' :: 'x' :: r | '0' :: 'X' :: r =>
      let hs := r.takeWhile (fun c => (hexVal c).isSome)
      if hs = [] then none
      else some (hs.foldl (fun a c => a * 16 + (hexVal c).getD 0) 0)
    | body =>
      let ds := body.takeWhile isDigitChar
      if ds = [] then none else some (digitsToNat ds)
  mag.map (fun m => if sign.1 then -(m : Int) else (m : Int))

/-- parseInt applied to a possibly missing object field: a missing field is
undefined, whose string form has no digits, hence NaN. -/
def jsParseInt : Option JsVal → Option Int
  | none => none
  | some v => parseIntChars (jsToString v).data

/-- Field read on a parsed JSON value: undefined (none) unless the value is
an object with that key; duplicate keys resolve to the last binding. -/
def jsField : JsVal → String → Option JsVal
  | .jobj ms, k => (ms.reverse.find? (fun p => p.1 == k)).map (fun p => p.2)
  | _, _ => none

/-- Optional chaining: field read through an undefined-propagating value. -/
def jsFieldOpt (v : Option JsVal) (k : String) : Option JsVal :=
  v.bind (fun w => jsField w k)

/-- JavaScript truthiness of a possibly undefined parsed JSON value. -/
def jsTruthy : Option JsVal → Bool
  | none => false
  | some .jnull => false
  | some (.jbool b) => b
  | some (.jnum n) => n != 0
  | some (.jstr s) => s != ""
  | some (.jarr _) => true
  | some (.jobj _) => true

/-- Array.isArray guarded read: the element list when the value is an
array. -/
def asJArray : Option JsVal → Option (List JsVal)
  | some (.jarr xs) => some xs
  | _ => none

/-- The JavaScript falsy-or applied after parseInt: the default replaces
NaN and zero. -/
def parseIntOr (o : Option Int) (d : Int) : Int :=
  match o with
  | none => d
  | some n => if n = 0 then d else n

/-! ### The sanitization pass of analyzeChannelContent (lines 277-309) -/

/-- A node after the sanitization map: the original parsed value (spread
into the result) with the clamped relevance and popularity. -/
structure SanitizedNode where
  orig : JsVal
  relevance : Int
  popularity : Int

/-- A link after the sanitization map. -/
structure SanitizedLink where
  orig : JsVal
  value : Int

/-- The graph value returned by analyzeChannelContent. -/
structure SanitizedGraph where
  nodes : List SanitizedNode
  links : List SanitizedLink
  summary : JsVal

/-- Lines 284-288: relevance and popularity become
min(10, max(1, parseInt(field) or 5)). -/
def sanitizeNode (node : JsVal) : SanitizedNode :=
  { orig := node
    relevance := min 10 (max 1 (parseIntOr (jsParseInt (jsField node "relevance")) 5))
    popularity := min 10 (max 1 (parseIntOr (jsParseInt (jsField node "popularity")) 5)) }

/-- Lines 292-295: the link value becomes min(5, max(1, parseInt(value) or 3)). -/
def sanitizeLink (link : JsVal) : SanitizedLink :=
  { orig := link
    value := min 5 (max 1 (parseIntOr (jsParseInt (jsField link "value")) 3)) }

/-- Lines 277-304 applied to the parsed graph payload: reject a missing
node array, sanitize nodes and links, default the summary. -/
def buildGraphResult (parsedGraph : JsVal) : Except String SanitizedGraph :=
  match asJArray (jsFieldOpt (jsField parsedGraph "graph") "nodes") with
  | none => .error ("Failed to construct topic graph. The model output was malformed.")
  | some nodes =>
    let links := (asJArray (jsFieldOpt (jsField parsedGraph "graph") "links")).getD []
    .ok { nodes := nodes.map sanitizeNode
          links := links.map sanitizeLink
          summary :=
            if jsTruthy (jsField parsedGraph "summary") then
              (jsField parsedGraph "summary").getD .jnull
            else .jstr ("No summary available.") }

/-- The whole graph step on the fourth response text: clean, safe-parse,
build; any failure surfaces as the single catch-all error of lines 305-309. -/
def graphStep (graphResponseText : String) : Except String SanitizedGraph :=
  match safeParseVal (cleanJson graphResponseText) with
  | .error _ => .error ("Failed to construct topic graph. The model output was malformed.")
  | .ok parsedGraph =>
    match buildGraphResult parsedGraph with
    | .error _ => .error ("Failed to construct topic graph. The model output was malformed.")
    | .ok g => .ok g

/-- The video extraction step on the third response text (lines 181-194):
clean, safe-parse, take the videos array when present, else the empty list;
a parse failure aborts the analysis. -/
def videoStep (videoResponseText : String) : Except String (List JsVal) :=
  match safeParseVal (cleanJson videoResponseText) with
  | .error _ => .error ("Failed to parse video list from model output.")
  | .ok pv =>
    if jsTruthy (some pv) then
      match asJArray (jsField pv "videos") with
      | some vs => .ok vs
      | none => .ok []
    else .ok []

/-- The pair returned by analyzeChannelContent on the normal path, from the
third and fourth response texts. -/
def analyzeChannelResult (r3 r4 : String) : Except String (List JsVal × SanitizedGraph) :=
  match videoStep r3 with
  | .error e => .error e
  | .ok videos =>
    match graphStep r4 with
    | .error e => .error e
    | .ok g => .ok (videos, g)

/-! ### A model of JSON.stringify, for the video list embedded in the graph
prompt -/

/-- A hexadecimal digit character, lowercase as emitted by JSON.stringify. -/
def hexChar (n : Nat) : Char :=
  if n < 10 then Char.ofNat (48 + n) else Char.ofNat (87 + n)

/-- Escaping of one character inside a JSON.stringify string literal. -/
def jsonEscapeChar (c : Char) : List Char :=
  if c = '"' then ['\\', '"']
  else if c = '\\' then ['\\', '\\']
  else if c = '\x08' then ['\\', 'b']
  else if c = '\t' then ['\\', 't']
  else if c = '\n' then ['\\', 'n']
  else if c = '\x0c' then ['\\', 'f']
  else if c = '\r' then ['\\', 'r']
  else if c.toNat < 32 then
    ['\\', 'u', '0', '0', hexChar (c.toNat / 16), hexChar (c.toNat % 16)]
  else [c]

/-- A JSON string literal for the given text. -/
def jsonQuote (s : String) : String :=
  ⟨'"' :: (s.data.flatMap jsonEscapeChar ++ ['"'])⟩

mutual

/-- JSON.stringify of a parsed value. -/
def jsonStringify : JsVal → String
  | .jnull => "null"
  | .jbool true => "true"
  | .jbool false => "false"
  | .jnum n => intDecStr n
  | .jstr s => jsonQuote s
  | .jarr xs => "[" ++ jsonStringifyElems xs ++ "]"
  | .jobj ms => "\x7b" ++ jsonStringifyMembers ms ++ "\x7d"

/-- Comma-separated serialization of array elements. -/
def jsonStringifyElems : List JsVal → String
  | [] => ""
  | [x] => jsonStringify x
  | x :: xs => jsonStringify x ++ "," ++ jsonStringifyElems xs

/-- Comma-separated serialization of object members. -/
def jsonStringifyMembers : List (String × JsVal) → String
  | [] => ""
  | [(k, v)] => jsonQuote k ++ ":" ++ jsonStringify v
  | (k, v) :: ms => jsonQuote k ++ ":" ++ jsonStringify v ++ "," ++ jsonStringifyMembers ms

end

/-- JSON.stringify of the extracted video array. -/
def jsonStringifyArr (xs : List JsVal) : String :=
  "[" ++ jsonStringifyElems xs ++ "]"

/-! ### The four prompts of analyzeChannelContent (lines 96-225) and the
request sequence -/

/-- JavaScript slice(0, n) on a string. -/
def jsSlice (n : Nat) (s : String) : String := ⟨s.data.take n⟩

/-- Lines 96-106, the discovery prompt around the channel URL. -/
def discoveryPromptPre : String :=
  "\n    I need to identify the YouTube channel associated with this URL or input: \""

/-- Text of the discovery prompt after the interpolated URL. -/
def discoveryPromptPost : String :=
  "\".\n    \n    Task:\n    1. Identify the exact Channel Name and Creator.\n    2. Identify 5 of the most popular, controversial, or intellectually significant videos from this channel.\n    \n    Return a concise list containing:\n    - Channel Name\n    - List of 5 Video Titles\n  "

/-- The discovery prompt (call 1). -/
def discoveryPrompt (channelUrl : String) : String :=
  discoveryPromptPre ++ channelUrl ++ discoveryPromptPost

/-- Text of the analysis prompt before the interpolated discovery data
(lines 121-133). -/
def analysisPromptPre : String :=
  "\n    Based on the following channel discovery data:\n    "

/-- Text of the analysis prompt after the interpolated discovery data. -/
def analysisPromptPost : String :=
  "\n\n    Perform a \"Deep Forensic Scan\" of the identified videos.\n    \n    Task:\n    1. For EACH of the 5 videos, use Google Search to find detailed summaries, transcripts, or commentary to understand the *exact* arguments made.\n    2. Synthesize the channel\x27s core recurring themes, mental models, and philosophy based *only* on these videos.\n    3. Determine the \"Relevance\" (centrality to worldview) and \"Popularity\" (audience reception) of these themes.\n\n    Provide a comprehensive text analysis that includes the detailed video summaries and the thematic breakdown.\n  "

/-- The deep-analysis prompt (call 2), around the discovery response text. -/
def analysisPrompt (discoveryData : String) : String :=
  analysisPromptPre ++ discoveryData ++ analysisPromptPost

/-- Text of the video prompt before the interpolated truncated analysis
(lines 148-156). -/
def videoPromptPre : String :=
  "\n    Based on this analysis:\n    "

/-- Text of the video prompt after the interpolated truncated analysis. -/
def videoPromptPost : String :=
  " \n\n    Generate a JSON object containing an array of the 5 videos analyzed.\n    Each video must have a \"title\" and a \"summary\" (2-3 sentences max).\n\n    Output PURE JSON.\n  "

/-- The video-extraction prompt (call 3), around the first 25000 characters
of the analysis response text. -/
def videoPrompt (fullAnalysis : String) : String :=
  videoPromptPre ++ jsSlice 25000 fullAnalysis ++ videoPromptPost

/-- Text of the graph prompt before the interpolated truncated analysis
(lines 200-225). -/
def graphPromptPre : String :=
  "\n    Context: Forensic Analysis of a YouTube channel.\n    Analysis Data: "

/-- Text of the graph prompt between the truncated analysis and the
serialized video list. -/
def graphPromptMid : String :=
  "\n    Identified Videos: "

/-- Text of the graph prompt after the serialized video list. -/
def graphPromptPost : String :=
  "\n\n    Task: Create a directed knowledge graph representing the channel\x27s worldview.\n\n    Generate a JSON object containing:\n    1. \"graph\": \n       - \"nodes\": Array of objects (Max 12 nodes total).\n          - \"id\": Topic Name (Unique String, Max 4 words).\n          - \"group\": 1 (Core Philosophy), 2 (Major Concepts), 3 (Specific Arguments).\n          - \"desc\": Short 1-sentence description (Max 15 words).\n          - \"longDescription\": A concise explanation (max 2 sentences) of this node\x27s role.\n          - \"relevance\": Integer from 1 to 10. **MUST BE LESS THAN 11**.\n          - \"popularity\": Integer from 1 to 10. **MUST BE LESS THAN 11**.\n       - \"links\": Array of objects \x7b \"source\": \"Topic Name\", \"target\": \"Topic Name\", \"value\": 1-5 \x7d. \n          **CRITICAL**: The graph MUST be contiguous (fully connected). Use the exact \"id\" strings from nodes for source/target.\n          **VALUE GUIDE**: \n            1: Loose thematic connection.\n            3: Strong conceptual link.\n            5: Critical dependency (Target directly derived from Source).\n    2. \"summary\": A one-paragraph executive summary of the channel\x27s worldview.\n\n    Output PURE JSON only. Ensure numerical values are standard Integers (e.g. 5, not 500000).\n  "

/-- The graph-extraction prompt (call 4), around the first 20000 characters
of the analysis response text and the stringified parsed video list. -/
def graphPrompt (fullAnalysis : String) (videos : List JsVal) : String :=
  graphPromptPre ++ jsSlice 20000 fullAnalysis ++
    (graphPromptMid ++ (jsonStringifyArr videos ++ graphPromptPost))

/-- The sequence of model requests (model name, prompt) issued by
analyzeChannelContent, given the response texts of the successive calls:
discovery and analysis on the pro model with search, then video extraction
and graph extraction on the flash model with JSON output.  When the video
parse step throws, the fourth request is never issued. -/
def analyzeChannelCalls (channelUrl r1 r2 r3 : String) : List (String × String) :=
  let call1 := ("gemini-3-pro-preview", discoveryPrompt channelUrl)
  let call2 := ("gemini-3-pro-preview", analysisPrompt r1)
  let call3 := ("gemini-3-flash-preview", videoPrompt r2)
  match videoStep r3 with
  | .error _ => [call1, call2, call3]
  | .ok videos => [call1, call2, call3, ("gemini-3-flash-preview", graphPrompt r2 videos)]

/-! ### The typed data model (types.ts) -/

/-- VideoData (types.ts lines 1-6). -/
structure VideoData where
  title : String
  summary : String
  url : Option String
  publishDate : Option String
deriving DecidableEq

/-- GraphNode (types.ts lines 8-15). -/
structure GraphNode where
  id : String
  group : Int
  desc : Option String
  longDescription : Option String
  relevance : Int
  popularity : Int
deriving DecidableEq

/-- GraphLink (types.ts lines 17-21). -/
structure GraphLink where
  source : String
  target : String
  value : Int
deriving DecidableEq

/-- TopicGraphData (types.ts lines 23-27). -/
structure TopicGraphData where
  nodes : List GraphNode
  links : List GraphLink
  summary : String
deriving DecidableEq

/-- Slide (types.ts lines 29-35). -/
structure Slide where
  title : String
  bulletPoints : List String
  rebuttal : String
  speakerNotes : String
  visualPrompt : String
deriving DecidableEq

/-- PresentationData (types.ts lines 37-39). -/
structure PresentationData where
  slides : List Slide
deriving DecidableEq

/-- AppState (types.ts lines 41-47). -/
inductive AppState where
  | IDLE
  | ANALYZING
  | DASHBOARD
  | GENERATING_SLIDES
  | PRESENTATION
deriving DecidableEq

/-! ### The page controller of App.tsx -/

/-- The component state of App.tsx that the handlers read and write.  The
wall-clock timestamp that addLog prepends to each entry is outside the
model; log entries are the bare messages. -/
structure AppSt where
  url : String
  appState : AppState
  graphData : Option TopicGraphData
  videoList : List VideoData
  presentationData : Option PresentationData
  error : Option String
  statusMsg : String
  progress : ℚ
  logs : List String
  customInstructions : String
deriving DecidableEq

/-- addLog (App.tsx lines 32-34): prepend the message, keep at most the
first 49 previous entries. -/
def addLogList (msg : String) (logs : List String) : List String :=
  msg :: logs.take 49

/-- Effect of one onProgress callback from the service (App.tsx lines
69-74 and 100-105): status message, log entry and progress value; the
restarted simulation timer re-enters through progressTick below. -/
def onProgressEvent (m : String) (p : ℚ) (st : AppSt) : AppSt :=
  { st with statusMsg := m, logs := addLogList m st.logs, progress := p }

/-- The error banner set by handleAnalyze on failure (App.tsx line 83). -/
def analysisFailedBanner : String :=
  "Analysis failed. Please ensure the URL is valid and try again. Gemini might be overloaded."

/-- handleAnalyze (App.tsx lines 57-88), as a function of the starting
state, the onProgress events observed during the awaited call, and the
outcome of analyzeChannelContent.  An empty URL returns immediately; on
success videos and graph are stored and the state moves to DASHBOARD; on a
thrown error the banner is set and the state moves back to IDLE. -/
def handleAnalyze (st : AppSt) (events : List (String × ℚ))
    (outcome : Except String (List VideoData × TopicGraphData)) : AppSt :=
  if st.url = "" then st
  else
    let st1 := { st with
                 appState := .ANALYZING
                 error := none
                 logs := []
                 statusMsg := "Initializing analysis..."
                 progress := 0 }
    let st2 := { st1 with logs := addLogList "Starting channel analysis sequence..." st1.logs }
    let st3 := events.foldl (fun s e => onProgressEvent e.1 e.2 s) st2
    match outcome with
    | .ok (videos, graph) =>
      { st3 with
        videoList := videos
        graphData := some graph
        logs := addLogList "Analysis complete. Loading dashboard." st3.logs
        progress := 100
        appState := .DASHBOARD }
    | .error msg =>
      { st3 with
        error := some analysisFailedBanner
        logs := addLogList ("Error: " ++ msg) st3.logs
        appState := .IDLE }

/-- handleGeneratePresentation (App.tsx lines 90-118): no graph or an empty
video list returns immediately; on success the presentation is stored and
the state moves to PRESENTATION; on a thrown error the banner is set and the
state moves back to DASHBOARD. -/
def handleGeneratePresentation (st : AppSt) (events : List (String × ℚ))
    (outcome : Except String PresentationData) : AppSt :=
  if st.graphData = none ∨ st.videoList = [] then st
  else
    let st1 := { st with
                 appState := .GENERATING_SLIDES
                 statusMsg := "Preparing presentation..."
                 progress := 0 }
    let st2 := { st1 with
                 logs := addLogList "Initializing presentation generation module..." st1.logs }
    let st3 :=
      if st2.customInstructions = "" then st2
      else
        let m := "Applied custom instructions: \"" ++ jsSlice 30 st2.customInstructions ++ "...\""
        { st2 with logs := addLogList m st2.logs }
    let st4 := events.foldl (fun s e => onProgressEvent e.1 e.2 s) st3
    match outcome with
    | .ok slides =>
      { st4 with
        presentationData := some slides
        logs := addLogList "Slides generated successfully." st4.logs
        progress := 100
        appState := .PRESENTATION }
    | .error msg =>
      { st4 with
        error := some ("Failed to generate presentation. Please try again.")
        logs := addLogList ("Error: " ++ msg) st4.logs
        appState := .DASHBOARD }

/-! ### The simulated progress timer (App.tsx lines 36-48) -/

/-- One timer tick of startProgressSimulation: unchanged at or above the
cap, otherwise advance by the larger of one tenth and a fiftieth of the
remaining distance, clipped to the cap.  Exact rational arithmetic stands in
for JavaScript float arithmetic; the claims proved about it are order
properties that hold in either interpretation. -/
def progressTick (capAt prev : ℚ) : ℚ :=
  if prev ≥ capAt then prev
  else min capAt (prev + max (1 / 10) ((capAt - prev) / 50))

/-- The progress value after n ticks of a simulation started at startAt
with cap capAt. -/
def progressAfter (startAt capAt : ℚ) (n : Nat) : ℚ :=
  (progressTick capAt)^[n] startAt

/-! ### Link sanitization of ForceGraph (components/ForceGraph.tsx lines
61-78) -/

/-- A node id or link endpoint as it may arrive from the services layer or
from a TOML import: a string or a number (the String conversion of line 63
and lines 75-76 exists precisely because both occur). -/
inductive IdVal where
  | str (s : String)
  | num (n : Int)
deriving DecidableEq

/-- The String conversion applied to ids. -/
def idToString : IdVal → String
  | .str s => s
  | .num n => intDecStr n

/-- A raw link endpoint: a plain id value, or a node object left behind by
a previous simulation run (the typeof object branch of lines 75-76). -/
inductive LinkEnd where
  | plain (v : IdVal)
  | nodeObj (id : IdVal)
deriving DecidableEq

/-- Endpoint resolution of lines 75-76: objects contribute their id field,
plain values are converted directly. -/
def linkEndId : LinkEnd → String
  | .plain v => idToString v
  | .nodeObj i => idToString i

/-- A ForceGraph input node (only the fields the sanitization reads). -/
structure FGNode where
  id : IdVal
  group : Int
  relevance : Int
  popularity : Int
deriving DecidableEq

/-- A ForceGraph input link. -/
structure FGLink where
  source : LinkEnd
  target : LinkEnd
  value : Int
deriving DecidableEq

/-- The ForceGraph data prop. -/
structure FGData where
  nodes : List FGNode
  links : List FGLink
deriving DecidableEq

/-- A link as handed to the force simulation, with string endpoints. -/
structure SimLink where
  source : String
  target : String
  value : Int
deriving DecidableEq

/-- Lines 63-78: stringify endpoints, then drop every link whose source or
target is not among the stringified node ids. -/
def forceGraphSimLinks (data : FGData) : List SimLink :=
  let validNodeIds := data.nodes.map (fun n => idToString n.id)
  (data.links.map (fun l =>
      { source := linkEndId l.source, target := linkEndId l.target, value := l.value : SimLink })).filter
    (fun l => validNodeIds.contains l.source && validNodeIds.contains l.target)

/-! ### generateSlideImage (services file, lines 415-441) -/

/-- An inline data part of a model response. -/
structure InlineData where
  mimeType : Option String
  data : String
deriving DecidableEq

/-- One part of the first candidate content. -/
structure ResponsePart where
  inlineData : Option InlineData
deriving DecidableEq

/-- The content of a candidate; the parts array itself may be missing. -/
structure CandContent where
  parts : Option (List ResponsePart)
deriving DecidableEq

/-- One response candidate. -/
structure Candidate where
  content : Option CandContent
deriving DecidableEq

/-- The generate-content response shape read by generateSlideImage. -/
structure GenResponse where
  candidates : Option (List Candidate)
deriving DecidableEq

/-- The data url built at line 432; a missing mime type renders as the text
undefined, as the template literal does. -/
def dataUrlOf (d : InlineData) : String :=
  "data:" ++ d.mimeType.getD "undefined" ++ ";base64," ++ d.data

/-- The scan of lines 429-435 over the parts of the first candidate: the
first part carrying inline data with a nonempty payload wins. -/
def scanPartsForInline : List ResponsePart → Option String
  | [] => none
  | p :: rest =>
    match p.inlineData with
    | some d => if d.data != "" then some (dataUrlOf d) else scanPartsForInline rest
    | none => scanPartsForInline rest

/-- generateSlideImage (lines 415-441) as a function of the service call
outcome.  Every branch, including a rejected call and the TypeError raised
by indexing an empty candidates array at line 429, lands in the catch of
line 437 or the fall-through of line 436 and yields null (none). -/
def generateSlideImage (callResult : Except Unit GenResponse) : Option String :=
  match callResult with
  | .error _ => none
  | .ok resp =>
    match resp.candidates with
    | none => none
    | some [] => none
    | some (c0 :: _) =>
      match c0.content with
      | none => none
      | some content =>
        match content.parts with
        | none => none
        | some parts => scanPartsForInline parts

/-! ### TOML export and import (App.tsx lines 120-203)

handleExport serializes meta, videos and graph with smol-toml stringify;
handleImport reads the text back with smol-toml parse.  The two library
functions are modelled below on the document shape the exporter produces:
basic strings with the standard escapes, integers, empty inline arrays, and
plain and array-of-table headers.  As TOML requires, the stringifier emits
the plain keys of every table before the sub-table headers. -/

/-- Escape of one character inside a TOML basic string. -/
def tomlEscapeChar (c : Char) : List Char :=
  if c = '\\' then ['\\', '\\']
  else if c = '"' then ['\\', '"']
  else if c = '\x08' then ['\\', 'b']
  else if c = '\t' then ['\\', 't']
  else if c = '\n' then ['\\', 'n']
  else if c = '\x0c' then ['\\', 'f']
  else if c = '\r' then ['\\', 'r']
  else if c.toNat < 32 ∨ c.toNat = 127 then
    ['\\', 'u', '0', '0', hexChar (c.toNat / 16), hexChar (c.toNat % 16)]
  else [c]

/-- A TOML basic string literal. -/
def tomlQuote (s : String) : List Char :=
  '"' :: (s.data.flatMap tomlEscapeChar ++ ['"'])

/-- A key = string-value line. -/
def kvStrLine (k : String) (v : String) : List Char :=
  k.data ++ (' ' :: '=' :: ' ' :: tomlQuote v)

/-- A key = integer line. -/
def kvIntLine (k : String) (n : Int) : List Char :=
  k.data ++ (' ' :: '=' :: ' ' :: intToChars n)

/-- A key = empty-inline-array line, used for an empty list value. -/
def kvEmptyArrLine (k : String) : List Char :=
  k.data ++ (' ' :: '=' :: ' ' :: '[' :: ']' :: [])

/-- A table header line. -/
def headerLine (path : String) : List Char :=
  '[' :: (path.data ++ [']'])

/-- An array-of-tables header line. -/
def arrayHeaderLine (path : String) : List Char :=
  '[' :: '[' :: (path.data ++ [']', ']'])

/-- The exporter input: the dashboard state read by handleExport. -/
structure ExportInput where
  url : String
  videos : List VideoData
  graph : TopicGraphData
deriving DecidableEq

/-- The lines of one exported video: title and summary always, url and
publishDate only when present (absent object keys are not serialized). -/
def videoLines (v : VideoData) : List (List Char) :=
  [arrayHeaderLine "videos", kvStrLine "title" v.title, kvStrLine "summary" v.summary]
  ++ (match v.url with
      | some u => [kvStrLine "url" u]
      | none => [])
  ++ (match v.publishDate with
      | some d => [kvStrLine "publishDate" d]
      | none => [])

/-- The lines of one exported node, in the field order of App.tsx lines
126-133; desc and longDescription are written as the field or the empty
string (the falsy-or of the exporter). -/
def nodeLines (n : GraphNode) : List (List Char) :=
  [arrayHeaderLine "graph.nodes",
   kvStrLine "id" n.id,
   kvIntLine "group" n.group,
   kvIntLine "relevance" n.relevance,
   kvIntLine "popularity" n.popularity,
   kvStrLine "desc" (n.desc.getD ""),
   kvStrLine "longDescription" (n.longDescription.getD "")]

/-- The lines of one exported link (App.tsx lines 135-139; the endpoints
are already strings after the id extraction of the exporter). -/
def linkLines (l : GraphLink) : List (List Char) :=
  [arrayHeaderLine "graph.links",
   kvStrLine "source" l.source,
   kvStrLine "target" l.target,
   kvIntLine "value" l.value]

/-- The lines of the exported document: root-level inline values first,
then the meta table, the video tables, and the graph table with its plain
summary key before the node and link tables. -/
def exportTomlLines (timestamp : String) (inp : ExportInput) : List (List Char) :=
  (if inp.videos = [] then [kvEmptyArrLine "videos"] else [])
  ++ [headerLine "meta", kvStrLine "timestamp" timestamp, kvStrLine "url" inp.url]
  ++ inp.videos.flatMap videoLines
  ++ [headerLine "graph"]
  ++ (if inp.graph.nodes = [] then [kvEmptyArrLine "nodes"] else [])
  ++ (if inp.graph.links = [] then [kvEmptyArrLine "links"] else [])
  ++ [kvStrLine "summary" inp.graph.summary]
  ++ inp.graph.nodes.flatMap nodeLines
  ++ inp.graph.links.flatMap linkLines

/-- Join lines with newline separators. -/
def joinNlLines : List (List Char) → List Char
  | [] => []
  | [l] => l
  | l :: ls => l ++ '\n' :: joinNlLines ls

/-- The TOML text written by handleExport for the given dashboard state and
export timestamp. -/
def handleExportText (timestamp : String) (inp : ExportInput) : String :=
  ⟨joinNlLines (exportTomlLines timestamp inp)⟩

/-! #### The import side -/

/-- Split a character list at newlines. -/
def splitNl : List Char → List (List Char)
  | [] => [[]]
  | c :: rest =>
    match splitNl rest with
    | [] => [[c]]
    | h :: t => if c = '\n' then [] :: h :: t else (c :: h) :: t

/-- One classified line of the TOML document. -/
inductive TomlLine where
  | header (path : List String)
  | arrayHeader (path : List String)
  | kvString (key : String) (v : String)
  | kvInt (key : String) (v : Int)
  | kvEmptyArr (key : String)
deriving DecidableEq

/-- A bare-key character. -/
def bareKeyChar (c : Char) : Bool :=
  ('a' ≤ c && c ≤ 'z') || ('A' ≤ c && c ≤ 'Z') || isDigitChar c || c = '_' || c = '-'

/-- Decode the body of a TOML basic string after the opening quote; returns
the decoded content and the input after the closing quote. -/
def tomlUnescape : List Char → Option (List Char × List Char)
  | [] => none
  | '"' :: rest => some ([], rest)
  | '\\' :: 'u' :: a :: b :: c :: d :: rest =>
    match hexVal a, hexVal b, hexVal c, hexVal d with
    | some x, some y, some z, some w =>
      (tomlUnescape rest).map
        (fun p => (Char.ofNat (((x * 16 + y) * 16 + z) * 16 + w) :: p.1, p.2))
    | _, _, _, _ => none
  | '\\' :: e :: rest =>
    if e = '\\' then (tomlUnescape rest).map (fun p => ('\\' :: p.1, p.2))
    else if e = '"' then (tomlUnescape rest).map (fun p => ('"' :: p.1, p.2))
    else if e = 'b' then (tomlUnescape rest).map (fun p => ('\x08' :: p.1, p.2))
    else if e = 't' then (tomlUnescape rest).map (fun p => ('\t' :: p.1, p.2))
    else if e = 'n' then (tomlUnescape rest).map (fun p => ('\n' :: p.1, p.2))
    else if e = 'f' then (tomlUnescape rest).map (fun p => ('\x0c' :: p.1, p.2))
    else if e = 'r' then (tomlUnescape rest).map (fun p => ('\r' :: p.1, p.2))
    else none
  | c :: rest => (tomlUnescape rest).map (fun p => (c :: p.1, p.2))

/-- Parse a dotted bare-key path (fuel-based; the caller passes the input
length, which is ample since every segment consumes characters). -/
def parseDottedPathGo : Nat → List Char → Option (List String)
  | 0, _ => none
  | fuel + 1, cs =>
    if (cs.takeWhile bareKeyChar) = [] then none
    else
      match cs.dropWhile bareKeyChar with
      | [] => some [⟨cs.takeWhile bareKeyChar⟩]
      | '.' :: r => (parseDottedPathGo fuel r).map (fun ps => ⟨cs.takeWhile bareKeyChar⟩ :: ps)
      | _ => none

/-- Parse a dotted bare-key path. -/
def parseDottedPath (cs : List Char) : Option (List String) :=
  parseDottedPathGo (cs.length + 1) cs

/-- Parse an integer literal covering the whole token. -/
def parseIntLit (cs : List Char) : Option Int :=
  match cs with
  | [] => none
  | c :: r =>
    if c = '-' then
      (if r ≠ [] ∧ r.all isDigitChar then some (-(digitsToNat r : Int)) else none)
    else if (c :: r).all isDigitChar then some ((digitsToNat (c :: r) : Int))
    else none

/-- Space or tab. -/
def spaceTab (c : Char) : Bool := c = ' ' || c = '\t'

/-- Classify the value token of a key-value line. -/
def parseValueToken (k : String) (v : List Char) : Option TomlLine :=
  match v with
  | [] => none
  | c :: r =>
    if c = '"' then
      match tomlUnescape r with
      | some (content, rest) => if rest = [] then some (.kvString k ⟨content⟩) else none
      | none => none
    else if c = '[' then
      (if r.dropWhile spaceTab = [']'] then some (.kvEmptyArr k) else none)
    else
      (parseIntLit (c :: r)).map (fun n => .kvInt k n)

/-- Classify one line of the document. -/
def classifyLine (cs : List Char) : Option TomlLine :=
  if listStartsWith ['[', '['] cs then
    match (cs.drop 2).reverse with
    | ']' :: ']' :: revInner => (parseDottedPath revInner.reverse).map .arrayHeader
    | _ => none
  else if listStartsWith ['['] cs then
    match (cs.drop 1).reverse with
    | ']' :: revInner => (parseDottedPath revInner.reverse).map .header
    | _ => none
  else
    let key := cs.takeWhile bareKeyChar
    let rest := cs.dropWhile bareKeyChar
    if key = [] then none
    else
      match rest.dropWhile spaceTab with
      | '=' :: r2 => parseValueToken ⟨key⟩ (r2.dropWhile spaceTab)
      | _ => none

/-- The data handleImport reads out of the parsed document. -/
structure ImportData where
  metaUrl : String
  timestamp : String
  videos : List VideoData
  graph : TopicGraphData
deriving DecidableEq

/-- Consume one required key = string line. -/
def takeKvStr (k : String) : List TomlLine → Option (String × List TomlLine)
  | .kvString k2 v :: rest => if k2 = k then some (v, rest) else none
  | _ => none

/-- Consume one required key = integer line. -/
def takeKvInt (k : String) : List TomlLine → Option (Int × List TomlLine)
  | .kvInt k2 n :: rest => if k2 = k then some (n, rest) else none
  | _ => none

/-- Consume one optional key = string line. -/
def takeOptKvStr (k : String) (ls : List TomlLine) : Option String × List TomlLine :=
  match ls with
  | .kvString k2 v :: rest => if k2 = k then (some v, rest) else (none, ls)
  | _ => (none, ls)

/-- Fields of one video table. -/
def parseVideoFields (ls : List TomlLine) : Option (VideoData × List TomlLine) := do
  let (t, ls) ← takeKvStr "title" ls
  let (s, ls) ← takeKvStr "summary" ls
  let (u, ls) := takeOptKvStr "url" ls
  let (p, ls) := takeOptKvStr "publishDate" ls
  some ({ title := t, summary := s, url := u, publishDate := p }, ls)

/-- Zero or more video tables. -/
def parseVideoBlocks : Nat → List TomlLine → Option (List VideoData × List TomlLine)
  | 0, _ => none
  | fuel + 1, ls =>
    match ls with
    | .arrayHeader ["videos"] :: rest =>
      match parseVideoFields rest with
      | some (v, rest2) => (parseVideoBlocks fuel rest2).map (fun p => (v :: p.1, p.2))
      | none => none
    | _ => some ([], ls)

/-- Fields of one node table; desc and longDescription come back as present
strings, since the exporter always writes them. -/
def parseNodeFields (ls : List TomlLine) : Option (GraphNode × List TomlLine) := do
  let (i, ls) ← takeKvStr "id" ls
  let (g, ls) ← takeKvInt "group" ls
  let (r, ls) ← takeKvInt "relevance" ls
  let (p, ls) ← takeKvInt "popularity" ls
  let (d, ls) ← takeKvStr "desc" ls
  let (ld, ls) ← takeKvStr "longDescription" ls
  some ({ id := i, group := g, desc := some d, longDescription := some ld,
          relevance := r, popularity := p }, ls)

/-- Zero or more node tables. -/
def parseNodeBlocks : Nat → List TomlLine → Option (List GraphNode × List TomlLine)
  | 0, _ => none
  | fuel + 1, ls =>
    match ls with
    | .arrayHeader ["graph", "nodes"] :: rest =>
      match parseNodeFields rest with
      | some (n, rest2) => (parseNodeBlocks fuel rest2).map (fun p => (n :: p.1, p.2))
      | none => none
    | _ => some ([], ls)

/-- Fields of one link table. -/
def parseLinkFields (ls : List TomlLine) : Option (GraphLink × List TomlLine) := do
  let (s, ls) ← takeKvStr "source" ls
  let (t, ls) ← takeKvStr "target" ls
  let (v, ls) ← takeKvInt "value" ls
  some ({ source := s, target := t, value := v }, ls)

/-- Zero or more link tables. -/
def parseLinkBlocks : Nat → List TomlLine → Option (List GraphLink × List TomlLine)
  | 0, _ => none
  | fuel + 1, ls =>
    match ls with
    | .arrayHeader ["graph", "links"] :: rest =>
      match parseLinkFields rest with
      | some (l, rest2) => (parseLinkBlocks fuel rest2).map (fun p => (l :: p.1, p.2))
      | none => none
    | _ => some ([], ls)

/-- Consume one optional key = empty-array marker line. -/
def takeOptEmptyArr (k : String) (ls : List TomlLine) : Bool × List TomlLine :=
  match ls with
  | .kvEmptyArr k2 :: rest => if k2 = k then (true, rest) else (false, ls)
  | _ => (false, ls)

/-- Parse the classified document: the optional root inline array, the meta
table, the video tables, and the graph table with summary, nodes and links.
An inline empty array conflicting with later array tables of the same name
is rejected, as TOML requires.  This covers the documents the exporter
writes; handleImport additionally rejects any parse outcome without graph
and videos, which the shape below always carries. -/
def parseTomlDoc (ls : List TomlLine) : Option ImportData :=
  let ve := takeOptEmptyArr "videos" ls
  match ve.2 with
  | .header ["meta"] :: r1 => do
    let (ts, r2) ← takeKvStr "timestamp" r1
    let (u, r3) ← takeKvStr "url" r2
    let (vs, r4) ← parseVideoBlocks (r3.length + 1) r3
    match r4 with
    | .header ["graph"] :: r5 => do
      let ne := takeOptEmptyArr "nodes" r5
      let le := takeOptEmptyArr "links" ne.2
      let (sm, r6) ← takeKvStr "summary" le.2
      let (ns, r7) ← parseNodeBlocks (r6.length + 1) r6
      let (lks, r8) ← parseLinkBlocks (r7.length + 1) r7
      if r8 = [] ∧ (ve.1 → vs = []) ∧ (ne.1 → ns = []) ∧ (le.1 → lks = []) then
        some { metaUrl := u, timestamp := ts, videos := vs,
               graph := { nodes := ns, links := lks, summary := sm } }
      else none
    | _ => none
  | _ => none

/-- Classify every line, failing when any line fails. -/
def classifyAll : List (List Char) → Option (List TomlLine)
  | [] => some []
  | l :: ls =>
    match classifyLine l with
    | some tl => (classifyAll ls).map (fun r => tl :: r)
    | none => none

/-- The import parse: split into lines, classify, parse the document. -/
def importToml (text : String) : Option ImportData :=
  match classifyAll (splitNl text.data) with
  | some ls => parseTomlDoc ls
  | none => none

/-- handleImport (App.tsx lines 167-203) applied to a prior state and the
file text: on a successful parse the url is overwritten when the imported
url is truthy, graph and videos are stored and the state moves to
DASHBOARD; on failure the error banner is set and the state returns to
IDLE.  The thrown message appended to the banner is outside the model. -/
def handleImportApply (st : AppSt) (text : String) : AppSt :=
  let st1 := { st with
               appState := .ANALYZING
               statusMsg := "Parsing TOML file..."
               logs := addLogList "Reading import file..." st.logs
               progress := 50 }
  match importToml text with
  | none =>
    { st1 with
      error := some ("Failed to parse TOML file.")
      appState := .IDLE }
  | some d =>
    let st2 := if d.metaUrl ≠ "" then { st1 with url := d.metaUrl } else st1
    { st2 with
      graphData := some d.graph
      videoList := d.videos
      logs := addLogList "Import successful. Skiping scraping." st2.logs
      progress := 100
      appState := .DASHBOARD }

/-- Normalization forced by the exporter on one node: missing descriptions
come back as empty strings. -/
def normNode (n : GraphNode) : GraphNode :=
  { n with desc := some (n.desc.getD ""), longDescription := some (n.longDescription.getD "") }

/-- Normalization forced by the exporter on the graph. -/
def normGraph (g : TopicGraphData) : TopicGraphData :=
  { g with nodes := g.nodes.map normNode }

/-! ### Classified images of the exported lines, used to state the
round-trip -/

/-- The classified lines of one exported video table. -/
def videoTLines (v : VideoData) : List TomlLine :=
  [.arrayHeader ["videos"], .kvString "title" v.title, .kvString "summary" v.summary]
  ++ (match v.url with
      | some u => [.kvString "url" u]
      | none => [])
  ++ (match v.publishDate with
      | some d => [.kvString "publishDate" d]
      | none => [])

/-- The classified lines of one exported node table. -/
def nodeTLines (n : GraphNode) : List TomlLine :=
  [.arrayHeader ["graph", "nodes"],
   .kvString "id" n.id,
   .kvInt "group" n.group,
   .kvInt "relevance" n.relevance,
   .kvInt "popularity" n.popularity,
   .kvString "desc" (n.desc.getD ""),
   .kvString "longDescription" (n.longDescription.getD "")]

/-- The classified lines of one exported link table. -/
def linkTLines (l : GraphLink) : List TomlLine :=
  [.arrayHeader ["graph", "links"],
   .kvString "source" l.source,
   .kvString "target" l.target,
   .kvInt "value" l.value]

/-- The classified lines of the whole exported document. -/
def exportTLines (timestamp : String) (inp : ExportInput) : List TomlLine :=
  (if inp.videos = [] then [.kvEmptyArr "videos"] else [])
  ++ [.header ["meta"], .kvString "timestamp" timestamp, .kvString "url" inp.url]
  ++ inp.videos.flatMap videoTLines
  ++ [.header ["graph"]]
  ++ (if inp.graph.nodes = [] then [.kvEmptyArr "nodes"] else [])
  ++ (if inp.graph.links = [] then [.kvEmptyArr "links"] else [])
  ++ [.kvString "summary" inp.graph.summary]
  ++ inp.graph.nodes.flatMap nodeTLines
  ++ inp.graph.links.flatMap linkTLines

/-! ### The conditions of the sanitizer claim, written from its wording -/

/-- State for the near-balance check: the open-bracket stack, the string
flags, and whether any closer failed to match. -/
structure NearBalSt where
  stack : List Char
  inString : Bool
  escape : Bool
  ok : Bool
deriving DecidableEq

/-- One character of the near-balance check: like the repair scan, but a
closer hitting an empty or mismatched stack marks the input as not
near-balanced. -/
def nearBalStep (st : NearBalSt) (c : Char) : NearBalSt :=
  let inStr := if c = '"' ∧ ¬st.escape then !st.inString else st.inString
  let stackOk : List Char × Bool :=
    if inStr then (st.stack, st.ok)
    else if c = '{' then ('}' :: st.stack, st.ok)
    else if c = '[' then (']' :: st.stack, st.ok)
    else if c = '}' ∨ c = ']' then
      match st.stack with
      | top :: rest => if top = c then (rest, st.ok) else (st.stack, false)
      | [] => (st.stack, false)
    else (st.stack, st.ok)
  let esc := if c = '\\' then !st.escape else false
  ⟨stackOk.1, inStr, esc, stackOk.2⟩

/-- Claim wording: the brace and bracket nesting is balanced or
near-balanced, closers missing only at the end - every closer outside a
string matches, and whatever remains open is simply never closed. -/
def bracketsNearBalanced (cs : List Char) : Bool :=
  (cs.foldl nearBalStep ⟨[], false, false, true⟩).ok

/-- Claim wording: the number of unterminated string literals (zero or one,
read off the final in-string flag of the scan). -/
def unterminatedStringCount (cs : List Char) : Nat :=
  if (cs.foldl scanStep ⟨[], false, false⟩).inString then 1 else 0

/-! ### The comma deletion as worded in the sanitizer description

The claim describes one deletion of every comma that immediately precedes,
up to whitespace, a closing brace or a closing bracket.  The code performs
two successive global replaces, braces first.  The single combined scan
below follows the claim wording; the equality of the two is proved among
the theorems. -/

/-- One step, from the right, of the combined deletion: as collapseStep,
but a match may end in either closer. -/
def deleteStep (c : Char) (acc : List Char × Option (List Char)) :
    List Char × Option (List Char) :=
  let t :=
    if c = ',' then
      match acc.2 with
      | some x => x
      | none => c :: acc.1
    else c :: acc.1
  let m :=
    if c = '}' ∨ c = ']' then some (c :: acc.1)
    else if jsWsChar c then acc.2
    else none
  (t, m)

/-- Single scan deleting each comma (and the whitespace after it) that
precedes a closing brace or bracket. -/
def deleteCommasBeforeClosers (cs : List Char) : List Char :=
  (cs.foldr deleteStep ([], none)).1

/-- Claim wording for the fence removal: a leading json or bare fence is
stripped together with the matching trailing fence. -/
def stripFencePairSpec (cs : List Char) : List Char :=
  if listStartsWith fenceJsonChars cs then stripCloseFence ((cs.drop 7).dropWhile jsWsChar)
  else if listStartsWith fenceChars cs then stripCloseFence ((cs.drop 3).dropWhile jsWsChar)
  else cs

/-! ### The first qualifying inline part, written from the generateSlideImage
claim -/

/-- A part that carries inline data with a nonempty payload. -/
def qualifyingPart (p : ResponsePart) : Bool :=
  match p.inlineData with
  | some d => d.data != ""
  | none => false

/-- The first qualifying part of a list. -/
def firstInlineData (parts : List ResponsePart) : Option InlineData :=
  (parts.find? qualifyingPart).bind (fun p => p.inlineData)

/-- The first inline-image part of a response, looked up where the code
looks: in the parts of the first candidate. -/
def responseFirstInline (r : GenResponse) : Option InlineData :=
  match r.candidates with
  | some (c0 :: _) =>
    match c0.content with
    | some ct =>
      match ct.parts with
      | some parts => firstInlineData parts
      | none => none
    | none => none
  | _ => none

/-! ## Theorems -/

/-! ### C8: the simulated progress timer -/

/-- One tick never decreases the progress value. -/
theorem progressTick_le_self (capAt p : ℚ) : p ≤ progressTick capAt p := by
  unfold progressTick
  split
  · exact le_refl p
  · next hlt =>
    push_neg at hlt
    refine le_min (le_of_lt hlt) ?_
    have h1 : (1 : ℚ) / 10 ≤ max (1 / 10) ((capAt - p) / 50) := le_max_left _ _
    linarith

/-- One tick keeps the value at or below the cap. -/
theorem progressTick_le_cap (capAt p : ℚ) (h : p ≤ capAt) :
    progressTick capAt p ≤ capAt := by
  unfold progressTick
  split
  · exact h
  · exact min_le_left _ _

/-- C8: for every run of the simulated-progress timer started by
startProgressSimulation(startAt, capAt) with startAt at most capAt, the
progress value never decreases from one tick to the next, never exceeds
capAt, and a tick leaves the value unchanged once it is at or above capAt -
all independent of any request progress, which the tick function does not
even receive. -/
theorem c8_progress_monotone_and_capped (startAt capAt : ℚ) (n : Nat)
    (h : startAt ≤ capAt) :
    progressAfter startAt capAt n ≤ progressAfter startAt capAt (n + 1) ∧
    progressAfter startAt capAt n ≤ capAt ∧
    (∀ p : ℚ, capAt ≤ p → progressTick capAt p = p) := by
  refine ⟨?_, ?_, ?_⟩
  · unfold progressAfter
    rw [Function.iterate_succ_apply']
    exact progressTick_le_self _ _
  · induction n with
    | zero => simpa [progressAfter]
    | succ k ih =>
      unfold progressAfter at ih ⊢
      rw [Function.iterate_succ_apply']
      exact progressTick_le_cap _ _ ih
  · intro p hp
    unfold progressTick
    split
    · rfl
    · next hlt => exact absurd hp hlt

/-- Witness for C8 at startAt 0, capAt 95, n 3 (and p 99 for the
fixed-point part). -/
theorem c8_progress_monotone_and_capped_witness :
    ((0 : ℚ) ≤ 95) ∧
    (progressAfter 0 95 3 ≤ progressAfter 0 95 4 ∧ progressAfter 0 95 3 ≤ 95 ∧
     (∀ p : ℚ, 95 ≤ p → progressTick 95 p = p)) ∧
    progressTick 95 99 = 99 :=
  ⟨by norm_num,
   c8_progress_monotone_and_capped 0 95 3 (by norm_num),
   (c8_progress_monotone_and_capped 0 95 3 (by norm_num)).2.2 99 (by norm_num)⟩

/-! ### C9: links handed to the simulation reference existing nodes -/

/-- C9: every link surviving the ForceGraph sanitization has a source and a
target that are, after string conversion, the id of some node of the input
data; orphan links are filtered out before the simulation and line elements
are built. -/
theorem c9_sim_links_reference_existing_nodes (data : FGData) (l : SimLink)
    (h : l ∈ forceGraphSimLinks data) :
    (∃ n ∈ data.nodes, idToString n.id = l.source) ∧
    (∃ n ∈ data.nodes, idToString n.id = l.target) := by
  unfold forceGraphSimLinks at h
  rw [List.mem_filter] at h
  obtain ⟨-, hc⟩ := h
  rw [Bool.and_eq_true] at hc
  obtain ⟨hs, ht⟩ := hc
  constructor
  · have hs2 := List.mem_of_elem_eq_true hs
    rw [List.mem_map] at hs2
    obtain ⟨n, hn, hid⟩ := hs2
    exact ⟨n, hn, hid⟩
  · have ht2 := List.mem_of_elem_eq_true ht
    rw [List.mem_map] at ht2
    obtain ⟨n, hn, hid⟩ := ht2
    exact ⟨n, hn, hid⟩

/-- Witness for C9: a two-link graph where only the link between existing
nodes survives. -/
theorem c9_sim_links_reference_existing_nodes_witness :
    (∃ n ∈ ([⟨.str "A", 1, 5, 5⟩, ⟨.num 0, 2, 5, 5⟩] : List FGNode),
        idToString n.id = "A") ∧
    (∃ n ∈ ([⟨.str "A", 1, 5, 5⟩, ⟨.num 0, 2, 5, 5⟩] : List FGNode),
        idToString n.id = "0") :=
  c9_sim_links_reference_existing_nodes
    ⟨[⟨.str "A", 1, 5, 5⟩, ⟨.num 0, 2, 5, 5⟩],
     [⟨.plain (.str "A"), .nodeObj (.num 0), 2⟩, ⟨.plain (.str "A"), .plain (.str "Z"), 1⟩]⟩
    ⟨"A", "0", 2⟩ (by decide)

/-! ### C10: generateSlideImage never throws and returns the first inline
image as a data url, or null -/

/-- The scan of the parts loop returns exactly the data url of the first
qualifying part. -/
theorem scanParts_eq_firstInline (parts : List ResponsePart) :
    scanPartsForInline parts = (firstInlineData parts).map dataUrlOf := by
  induction parts with
  | nil => rfl
  | cons p rest ih =>
    cases hp : p.inlineData with
    | none =>
      have hfind : firstInlineData (p :: rest) = firstInlineData rest := by
        unfold firstInlineData
        rw [List.find?_cons_of_neg _ (by simp [qualifyingPart, hp])]
      calc scanPartsForInline (p :: rest) = scanPartsForInline rest := by
            simp only [scanPartsForInline, hp]
        _ = Option.map dataUrlOf (firstInlineData rest) := ih
        _ = Option.map dataUrlOf (firstInlineData (p :: rest)) := by rw [hfind]
    | some d =>
      by_cases hd : d.data = ""
      · have hfind : firstInlineData (p :: rest) = firstInlineData rest := by
          unfold firstInlineData
          rw [List.find?_cons_of_neg _ (by simp [qualifyingPart, hp, hd])]
        calc scanPartsForInline (p :: rest) = scanPartsForInline rest := by
              simp only [scanPartsForInline, hp, hd]
              rfl
          _ = Option.map dataUrlOf (firstInlineData rest) := ih
          _ = Option.map dataUrlOf (firstInlineData (p :: rest)) := by rw [hfind]
      · have hfind : firstInlineData (p :: rest) = some d := by
          unfold firstInlineData
          rw [List.find?_cons_of_pos _ (by simp [qualifyingPart, hp, hd])]
          simp [hp]
        rw [hfind]
        simp only [scanPartsForInline, hp, hd]
        simp [hd]

/-- C10: generateSlideImage is total (never throws), and returns the data
url, of the form data colon mime type semicolon base64 comma payload, built
from the first inline-image part of the first candidate, or none when the
call fails or no such part exists. -/
theorem c10_slide_image_first_inline_or_none (o : Except Unit GenResponse) :
    generateSlideImage o =
      match o with
      | .error _ => none
      | .ok r => (responseFirstInline r).map dataUrlOf := by
  cases o with
  | error e => rfl
  | ok r =>
    obtain ⟨cands⟩ := r
    cases cands with
    | none => rfl
    | some cl =>
      cases cl with
      | nil => rfl
      | cons c0 rest =>
        obtain ⟨ct⟩ := c0
        cases ct with
        | none => rfl
        | some ctv =>
          obtain ⟨ps⟩ := ctv
          cases ps with
          | none => rfl
          | some parts =>
            show scanPartsForInline parts = (firstInlineData parts).map dataUrlOf
            exact scanParts_eq_firstInline parts

/-! ### C5: failures return the app to the prior UI state without touching
stored data -/

/-- The onProgress callbacks touch only the status message, logs and
progress value. -/
theorem onProgress_fold_preserves (events : List (String × ℚ)) (st : AppSt) :
    (events.foldl (fun s e => onProgressEvent e.1 e.2 s) st).graphData = st.graphData ∧
    (events.foldl (fun s e => onProgressEvent e.1 e.2 s) st).videoList = st.videoList ∧
    (events.foldl (fun s e => onProgressEvent e.1 e.2 s) st).presentationData =
      st.presentationData := by
  induction events generalizing st with
  | nil => exact ⟨rfl, rfl, rfl⟩
  | cons e es ih =>
    simpa [List.foldl_cons, onProgressEvent] using ih (onProgressEvent e.1 e.2 st)

/-- C5: when analyzeChannelContent throws inside handleAnalyze the app
returns to IDLE, and when generateRebuttal throws inside
handleGeneratePresentation the app returns to DASHBOARD; in both cases the
stored graph data, video list and presentation data are exactly those of
the starting state - nothing is rolled back or cleared. -/
theorem c5_failure_returns_to_prior_state (st : AppSt) (ev1 ev2 : List (String × ℚ))
    (e1 e2 : String) (hurl : st.url ≠ "") (hg : st.graphData ≠ none)
    (hv : st.videoList ≠ []) :
    ((handleAnalyze st ev1 (.error e1)).appState = .IDLE ∧
     (handleAnalyze st ev1 (.error e1)).graphData = st.graphData ∧
     (handleAnalyze st ev1 (.error e1)).videoList = st.videoList ∧
     (handleAnalyze st ev1 (.error e1)).presentationData = st.presentationData) ∧
    ((handleGeneratePresentation st ev2 (.error e2)).appState = .DASHBOARD ∧
     (handleGeneratePresentation st ev2 (.error e2)).graphData = st.graphData ∧
     (handleGeneratePresentation st ev2 (.error e2)).videoList = st.videoList ∧
     (handleGeneratePresentation st ev2 (.error e2)).presentationData =
       st.presentationData) := by
  constructor
  · unfold handleAnalyze
    rw [if_neg hurl]
    obtain ⟨hg1, hv1, hp1⟩ := onProgress_fold_preserves ev1
      { st with
        appState := .ANALYZING
        error := none
        logs := addLogList "Starting channel analysis sequence..." []
        statusMsg := "Initializing analysis..."
        progress := 0 }
    exact ⟨rfl, hg1, hv1, hp1⟩
  · unfold handleGeneratePresentation
    rw [if_neg (by push_neg; exact ⟨hg, hv⟩)]
    by_cases hci : st.customInstructions = ""
    · dsimp only
      rw [if_pos hci]
      obtain ⟨hg1, hv1, hp1⟩ := onProgress_fold_preserves ev2
        { st with
          appState := .GENERATING_SLIDES
          statusMsg := "Preparing presentation..."
          progress := 0
          logs := addLogList "Initializing presentation generation module..." st.logs }
      exact ⟨rfl, hg1, hv1, hp1⟩
    · dsimp only
      rw [if_neg hci]
      obtain ⟨hg1, hv1, hp1⟩ := onProgress_fold_preserves ev2
        { st with
          appState := .GENERATING_SLIDES
          statusMsg := "Preparing presentation..."
          progress := 0
          logs := addLogList
            ("Applied custom instructions: \"" ++ jsSlice 30 st.customInstructions ++ "...\"")
            (addLogList "Initializing presentation generation module..." st.logs) }
      exact ⟨rfl, hg1, hv1, hp1⟩

/-- Witness for C5 at a concrete dashboard state with a stored graph, one
video and no presentation. -/
theorem c5_failure_returns_to_prior_state_witness :
    (handleAnalyze
        ⟨"u", .DASHBOARD, some ⟨[], [], "s"⟩, [⟨"t", "x", none, none⟩], none, none,
          "", 0, [], ""⟩ [] (.error "boom")).appState = .IDLE ∧
    (handleGeneratePresentation
        ⟨"u", .DASHBOARD, some ⟨[], [], "s"⟩, [⟨"t", "x", none, none⟩], none, none,
          "", 0, [], ""⟩ [] (.error "boom")).appState = .DASHBOARD ∧
    (handleGeneratePresentation
        ⟨"u", .DASHBOARD, some ⟨[], [], "s"⟩, [⟨"t", "x", none, none⟩], none, none,
          "", 0, [], ""⟩ [] (.error "boom")).graphData = some ⟨[], [], "s"⟩ :=
  ⟨(c5_failure_returns_to_prior_state _ [] [] "boom" "boom" (by decide) (by decide)
      (by decide)).1.1,
   (c5_failure_returns_to_prior_state _ [] [] "boom" "boom" (by decide) (by decide)
      (by decide)).2.1,
   (c5_failure_returns_to_prior_state _ [] [] "boom" "boom" (by decide) (by decide)
      (by decide)).2.2.1⟩

/-! ### C3: one repair attempt, original error rethrown -/

/-- C3: when the first JSON.parse fails, safeParse makes exactly one
repair-and-reparse attempt (the parse attempts are the input and its
repaired form, nothing further), and when the reparse also fails the thrown
error is the original one, carrying the input string of the first parse
rather than the repaired string of the retry. -/
theorem c3_single_repair_then_original_error (s : String) (h : jsonParse s = none) :
    safeParseAttempts s = [s, repairStr s] ∧
    (jsonParse (repairStr s) = none → safeParseVal s = .error s) := by
  constructor
  · unfold safeParseAttempts
    rw [h]
  · intro h2
    unfold safeParseVal
    rw [h, h2]

/-- Witness for C3 at a truncated object whose repair is still invalid. -/
theorem c3_single_repair_then_original_error_witness :
    safeParseAttempts ("\x7b\"a\": ") = [("\x7b\"a\": "), repairStr ("\x7b\"a\": ")] ∧
    safeParseVal ("\x7b\"a\": ") = .error ("\x7b\"a\": ") := by
  have h := c3_single_repair_then_original_error ("\x7b\"a\": ") (by rfl)
  exact ⟨h.1, h.2 (by rfl)⟩

/-! ### C6: four sequential, threaded model calls -/

/-- C6: when the video-extraction step succeeds, analyzeChannelContent
issues exactly four requests, in the order discovery, deep analysis, video
extraction, graph extraction; the discovery response appears verbatim in
the analysis prompt, the analysis response appears truncated to 25000 and
20000 characters in the video and graph prompts, and the stringified parsed
video list appears in the graph prompt. -/
theorem c6_four_sequential_threaded_calls (url r1 r2 r3 : String)
    (videos : List JsVal) (h : videoStep r3 = .ok videos) :
    analyzeChannelCalls url r1 r2 r3 =
      [("gemini-3-pro-preview", discoveryPrompt url),
       ("gemini-3-pro-preview", analysisPrompt r1),
       ("gemini-3-flash-preview", videoPrompt r2),
       ("gemini-3-flash-preview", graphPrompt r2 videos)] ∧
    (∃ a b, analysisPrompt r1 = a ++ r1 ++ b) ∧
    (∃ a b, videoPrompt r2 = a ++ jsSlice 25000 r2 ++ b) ∧
    (∃ a b, graphPrompt r2 videos = a ++ jsSlice 20000 r2 ++ b) ∧
    (∃ a b, graphPrompt r2 videos = a ++ jsonStringifyArr videos ++ b) := by
  refine ⟨?_, ⟨analysisPromptPre, analysisPromptPost, rfl⟩,
    ⟨videoPromptPre, videoPromptPost, rfl⟩,
    ⟨graphPromptPre, graphPromptMid ++ (jsonStringifyArr videos ++ graphPromptPost), rfl⟩,
    ⟨graphPromptPre ++ jsSlice 20000 r2 ++ graphPromptMid, graphPromptPost, ?_⟩⟩
  · unfold analyzeChannelCalls
    rw [h]
  · unfold graphPrompt
    simp [String.append_assoc]

/-- Witness for C6 with an empty parsed video list. -/
theorem c6_four_sequential_threaded_calls_witness :
    videoStep ("\x7b\"videos\": []\x7d") = .ok [] ∧
    (analyzeChannelCalls "u" "r1" "r2" ("\x7b\"videos\": []\x7d") =
      [("gemini-3-pro-preview", discoveryPrompt "u"),
       ("gemini-3-pro-preview", analysisPrompt "r1"),
       ("gemini-3-flash-preview", videoPrompt "r2"),
       ("gemini-3-flash-preview", graphPrompt "r2" [])] ∧
     (∃ a b, analysisPrompt "r1" = a ++ "r1" ++ b) ∧
     (∃ a b, videoPrompt "r2" = a ++ jsSlice 25000 "r2" ++ b) ∧
     (∃ a b, graphPrompt "r2" [] = a ++ jsSlice 20000 "r2" ++ b) ∧
     (∃ a b, graphPrompt "r2" [] = a ++ jsonStringifyArr [] ++ b)) :=
  ⟨rfl, c6_four_sequential_threaded_calls "u" "r1" "r2" ("\x7b\"videos\": []\x7d") []
    (by rfl)⟩

/-! ### C2: sanitized scores always land in bounds -/

/-- Clamping with min and max lands between the bounds. -/
theorem clamp_mem (lo hi x : Int) (hlohi : lo ≤ hi) :
    lo ≤ min hi (max lo x) ∧ min hi (max lo x) ≤ hi :=
  ⟨le_min hlohi (le_max_left _ _), min_le_left _ _⟩

/-- C2: whenever the analysis returns normally, every node of the returned
graph carries integer relevance and popularity between 1 and 10 and every
returned link carries an integer value between 1 and 5, whatever the parsed
model output contained in those fields (missing, non-numeric or out of
range).  Integrality is by construction: the sanitized fields live in the
integers. -/
theorem c2_returned_scores_in_bounds (r3 r4 : String) (videos : List JsVal)
    (g : SanitizedGraph) (h : analyzeChannelResult r3 r4 = .ok (videos, g)) :
    (∀ n ∈ g.nodes, (1 ≤ n.relevance ∧ n.relevance ≤ 10) ∧
      (1 ≤ n.popularity ∧ n.popularity ≤ 10)) ∧
    (∀ l ∈ g.links, 1 ≤ l.value ∧ l.value ≤ 5) := by
  unfold analyzeChannelResult at h
  split at h
  · exact absurd h (by simp)
  · split at h
    · exact absurd h (by simp)
    · next g2 hg2 =>
      rw [Except.ok.injEq, Prod.mk.injEq] at h
      obtain ⟨-, rfl⟩ := h
      unfold graphStep at hg2
      split at hg2
      · exact absurd hg2 (by simp)
      · split at hg2
        · exact absurd hg2 (by simp)
        · next g3 hg3 =>
          rw [Except.ok.injEq] at hg2
          subst hg2
          unfold buildGraphResult at hg3
          split at hg3
          · exact absurd hg3 (by simp)
          · next nodes hnodes =>
            rw [Except.ok.injEq] at hg3
            subst hg3
            constructor
            · intro n hn
              rw [List.mem_map] at hn
              obtain ⟨orig, -, rfl⟩ := hn
              exact ⟨clamp_mem 1 10 _ (by norm_num), clamp_mem 1 10 _ (by norm_num)⟩
            · intro l hl
              rw [List.mem_map] at hl
              obtain ⟨orig, -, rfl⟩ := hl
              exact clamp_mem 1 5 _ (by norm_num)

/-- Witness for C2 at concrete response texts whose graph payload carries
an out-of-range relevance, a missing popularity and a zero link value. -/
theorem c2_returned_scores_in_bounds_witness :
    (∀ n ∈ ({ nodes := [⟨.jobj [("relevance", .jnum 99)], 10, 5⟩],
              links := [⟨.jobj [("value", .jnum 0)], 3⟩],
              summary := .jstr "s" } : SanitizedGraph).nodes,
       (1 ≤ n.relevance ∧ n.relevance ≤ 10) ∧
       (1 ≤ n.popularity ∧ n.popularity ≤ 10)) ∧
    (∀ l ∈ ({ nodes := [⟨.jobj [("relevance", .jnum 99)], 10, 5⟩],
              links := [⟨.jobj [("value", .jnum 0)], 3⟩],
              summary := .jstr "s" } : SanitizedGraph).links,
       1 ≤ l.value ∧ l.value ≤ 5) :=
  c2_returned_scores_in_bounds
    ("\x7b\"videos\": []\x7d")
    ("\x7b\"graph\": \x7b\"nodes\": [\x7b\"relevance\": 99\x7d], \"links\": [\x7b\"value\": 0\x7d]\x7d, \"summary\": \"s\"\x7d")
    [] _ (by rfl)

/-! ### C1: the repair pass balances what its scan finds, but need not
produce valid JSON -/

/-- The stack after one scan step is the old stack, the old stack with a
closer pushed, or the old stack popped. -/
theorem scanStep_stack_cases (st : ScanSt) (c : Char) :
    (scanStep st c).stack = st.stack ∨ (scanStep st c).stack = '}' :: st.stack ∨
    (scanStep st c).stack = ']' :: st.stack ∨
    (∃ top rest, st.stack = top :: rest ∧ (scanStep st c).stack = rest) := by
  unfold scanStep
  dsimp only
  split_ifs <;> try tauto
  all_goals
    split
    · next top rest heq =>
      split_ifs
      · exact Or.inr (Or.inr (Or.inr ⟨top, rest, heq, rfl⟩))
      · tauto
    · tauto

/-- The repair scan only ever pushes closing braces and closing brackets,
so its final stack holds nothing else. -/
theorem scanStack_closers (cs : List Char) (st : ScanSt)
    (h : ∀ c ∈ st.stack, c = '}' ∨ c = ']') :
    ∀ c ∈ (cs.foldl scanStep st).stack, c = '}' ∨ c = ']' := by
  induction cs generalizing st with
  | nil => exact h
  | cons c cs ih =>
    rw [List.foldl_cons]
    apply ih
    rcases scanStep_stack_cases st c with heq | heq | heq | ⟨top, rest, hsp, heq⟩ <;>
      rw [heq]
    · exact h
    · intro x hx
      rw [List.mem_cons] at hx
      rcases hx with rfl | hx
      · exact Or.inl rfl
      · exact h x hx
    · intro x hx
      rw [List.mem_cons] at hx
      rcases hx with rfl | hx
      · exact Or.inr rfl
      · exact h x hx
    · intro x hx
      exact h x (hsp ▸ List.mem_cons_of_mem _ hx)

/-- Feeding the scan its own closer stack, from any state outside a string,
pops everything. -/
theorem scan_closes_own_stack (l : List Char) (e : Bool)
    (h : ∀ c ∈ l, c = '}' ∨ c = ']') :
    (l.foldl scanStep ⟨l, false, e⟩).stack = [] ∧
    (l.foldl scanStep ⟨l, false, e⟩).inString = false := by
  induction l generalizing e with
  | nil => exact ⟨rfl, rfl⟩
  | cons c rest ih =>
    have hc : c = '}' ∨ c = ']' := h c (List.mem_cons_self _ _)
    have hstep : scanStep ⟨c :: rest, false, e⟩ c = ⟨rest, false, false⟩ := by
      unfold scanStep
      rcases hc with rfl | rfl <;> simp [jsWsChar]
    rw [List.foldl_cons, hstep]
    exact ih false (fun x hx => h x (List.mem_cons_of_mem _ hx))

/-- C1 (amended): the repair appends exactly the closers its scan left on
the stack, so re-scanning the repaired text ends with an empty stack and
outside a string, whenever the scan of the quote-fixed trimmed input ends
outside a string.  The repaired text still need not be valid JSON (see the
counterexample), in which case safeParse rethrows the original error. -/
theorem c1_repair_closes_all_scanned_nesting (s : String)
    (h : (scanChars (quoteFixed (jsTrim s.data))).inString = false) :
    (scanChars (repairChars s)).stack = [] ∧
    (scanChars (repairChars s)).inString = false := by
  unfold repairChars
  have hcl : ∀ c ∈ (scanChars (quoteFixed (jsTrim s.data))).stack, c = '}' ∨ c = ']' :=
    scanStack_closers _ ⟨[], false, false⟩ (by simp)
  unfold scanChars at h hcl ⊢
  rw [List.foldl_append]
  rcases hsc : List.foldl scanStep ⟨[], false, false⟩ (quoteFixed (jsTrim s.data))
    with ⟨stk, instr, esc⟩
  rw [hsc] at h hcl
  dsimp only at h hcl ⊢
  subst h
  exact scan_closes_own_stack stk esc hcl

/-- Witness for the amended C1 at the truncated object input. -/
theorem c1_repair_closes_all_scanned_nesting_witness :
    (scanChars (repairChars ("\x7b\"a\": "))).stack = [] ∧
    (scanChars (repairChars ("\x7b\"a\": "))).inString = false :=
  c1_repair_closes_all_scanned_nesting ("\x7b\"a\": ") (by rfl)

/-- Counterexample to C1 as stated: the input, an object truncated right
after a colon, has near-balanced nesting (closers missing only at the end)
and no unterminated string, its first parse fails, yet the repaired text
(the object with a brace appended straight after the colon) also fails to
parse, and safeParse throws the original error instead of returning a
value. -/
theorem c1_near_balanced_repair_counterexample :
    bracketsNearBalanced ("\x7b\"a\": ").data = true ∧
    unterminatedStringCount ("\x7b\"a\": ").data ≤ 1 ∧
    jsonParse ("\x7b\"a\": ") = none ∧
    repairStr ("\x7b\"a\": ") = ("\x7b\"a\":\x7d") ∧
    jsonParse (repairStr ("\x7b\"a\": ")) = none ∧
    safeParseVal ("\x7b\"a\": ") = .error ("\x7b\"a\": ") :=
  ⟨rfl, by decide, rfl, rfl, rfl, rfl⟩

/-! ### C7: cleanJson performs exactly the three described transforms -/

/-- Projection equations of the fold steps, stated so that rewriting leaves
the folded function untouched. -/
theorem collapseStep_snd (close c : Char) (acc : List Char × Option (List Char)) :
    (collapseStep close c acc).2 =
      (if c = close then some (close :: acc.1)
       else if jsWsChar c then acc.2 else none) := rfl

/-- First projection of the comma-collapse step. -/
theorem collapseStep_fst (close c : Char) (acc : List Char × Option (List Char)) :
    (collapseStep close c acc).1 =
      (if c = ',' then
        match acc.2 with
        | some x => x
        | none => c :: acc.1
      else c :: acc.1) := rfl

/-- Second projection of the combined deletion step. -/
theorem deleteStep_snd (c : Char) (acc : List Char × Option (List Char)) :
    (deleteStep c acc).2 =
      (if c = '}' ∨ c = ']' then some (c :: acc.1)
       else if jsWsChar c then acc.2 else none) := rfl

/-- First projection of the combined deletion step. -/
theorem deleteStep_fst (c : Char) (acc : List Char × Option (List Char)) :
    (deleteStep c acc).1 =
      (if c = ',' then
        match acc.2 with
        | some x => x
        | none => c :: acc.1
      else c :: acc.1) := rfl

/-- The match component of the comma-collapse fold: exactly the suffixes
beginning with whitespace and the closer match, and the continuation is the
closer followed by the transform of what comes after it. -/
theorem collapse_m_spec (close : Char) (hcw : jsWsChar close = false) (s : List Char) :
    (s.foldr (collapseStep close) ([], none)).2 =
      (match s.dropWhile jsWsChar with
       | b :: tail =>
         if b = close then some (close :: collapseCommaClose close tail) else none
       | [] => none) := by
  induction s with
  | nil => rfl
  | cons c s ih =>
    rw [List.foldr_cons, collapseStep_snd]
    by_cases hc : c = close
    · subst hc
      rw [if_pos rfl, List.dropWhile_cons, if_neg (by simp [hcw])]
      dsimp only
      rw [if_pos rfl]
      rfl
    · by_cases hw : jsWsChar c
      · rw [if_neg hc, if_pos hw, ih, List.dropWhile_cons, if_pos hw]
      · rw [if_neg hc, if_neg hw, List.dropWhile_cons, if_neg hw]
        dsimp only
        rw [if_neg hc]

/-- The cons equation of the comma-collapse in the form of the JavaScript
scan: at a comma, a whitespace run followed by the closer is consumed and
replaced, otherwise the scan moves one character. -/
theorem collapse_cons (close : Char) (hcw : jsWsChar close = false)
    (c : Char) (s : List Char) :
    collapseCommaClose close (c :: s) =
      (if c = ',' then
        match s.dropWhile jsWsChar with
        | b :: tail =>
          if b = close then close :: collapseCommaClose close tail
          else c :: collapseCommaClose close s
        | [] => c :: collapseCommaClose close s
      else c :: collapseCommaClose close s) := by
  show (List.foldr (collapseStep close) ([], none) (c :: s)).1 = _
  rw [List.foldr_cons, collapseStep_fst]
  by_cases hc : c = ','
  · rw [if_pos hc, if_pos hc, collapse_m_spec close hcw s]
    cases hds : s.dropWhile jsWsChar with
    | nil => rfl
    | cons b tail =>
      dsimp only
      by_cases hb : b = close
      · rw [if_pos hb, if_pos hb]
      · rw [if_neg hb, if_neg hb]
        rfl
  · rw [if_neg hc, if_neg hc]
    rfl

/-- The match component of the combined deletion fold. -/
theorem delete_m_spec (s : List Char) :
    (s.foldr deleteStep ([], none)).2 =
      (match s.dropWhile jsWsChar with
       | b :: tail =>
         if b = '}' ∨ b = ']' then some (b :: deleteCommasBeforeClosers tail) else none
       | [] => none) := by
  induction s with
  | nil => rfl
  | cons c s ih =>
    rw [List.foldr_cons, deleteStep_snd]
    by_cases hc : c = '}' ∨ c = ']'
    · rw [if_pos hc, List.dropWhile_cons,
        if_neg (by rcases hc with rfl | rfl <;> simp [jsWsChar])]
      dsimp only
      rw [if_pos hc]
      rfl
    · by_cases hw : jsWsChar c
      · rw [if_neg hc, if_pos hw, ih, List.dropWhile_cons, if_pos hw]
      · rw [if_neg hc, if_neg hw, List.dropWhile_cons, if_neg hw]
        dsimp only
        rw [if_neg hc]

/-- The cons equation of the combined deletion. -/
theorem delete_cons (c : Char) (s : List Char) :
    deleteCommasBeforeClosers (c :: s) =
      (if c = ',' then
        match s.dropWhile jsWsChar with
        | b :: tail =>
          if b = '}' ∨ b = ']' then b :: deleteCommasBeforeClosers tail
          else c :: deleteCommasBeforeClosers s
        | [] => c :: deleteCommasBeforeClosers s
      else c :: deleteCommasBeforeClosers s) := by
  show (List.foldr deleteStep ([], none) (c :: s)).1 = _
  rw [List.foldr_cons, deleteStep_fst]
  by_cases hc : c = ','
  · rw [if_pos hc, if_pos hc, delete_m_spec s]
    cases hds : s.dropWhile jsWsChar with
    | nil => rfl
    | cons b tail =>
      dsimp only
      by_cases hb : b = '}' ∨ b = ']'
      · rw [if_pos hb, if_pos hb]
      · rw [if_neg hb, if_neg hb]
        rfl
  · rw [if_neg hc, if_neg hc]
    rfl

/-- Dropping whitespace skips a whitespace run. -/
theorem dropWhile_ws_append (l x : List Char) (h : ∀ c ∈ l, jsWsChar c) :
    (l ++ x).dropWhile jsWsChar = x.dropWhile jsWsChar := by
  induction l with
  | nil => rfl
  | cons c l ih =>
    rw [List.cons_append, List.dropWhile_cons, if_pos (h c (List.mem_cons_self _ _))]
    exact ih (fun d hd => h d (List.mem_cons_of_mem _ hd))

/-- The comma-collapse passes a whitespace run through unchanged. -/
theorem collapse_ws_append (close : Char) (hcw : jsWsChar close = false)
    (l x : List Char) (h : ∀ c ∈ l, jsWsChar c) :
    collapseCommaClose close (l ++ x) = l ++ collapseCommaClose close x := by
  induction l with
  | nil => rfl
  | cons c l ih =>
    have hcws := h c (List.mem_cons_self _ _)
    have hc : c ≠ ',' := by
      intro he
      rw [he] at hcws
      exact absurd hcws (by decide)
    rw [List.cons_append, collapse_cons close hcw, if_neg hc,
      ih (fun d hd => h d (List.mem_cons_of_mem _ hd))]
    rfl

/-- The combined deletion passes a whitespace run through unchanged. -/
theorem delete_ws_append (l x : List Char) (h : ∀ c ∈ l, jsWsChar c) :
    deleteCommasBeforeClosers (l ++ x) = l ++ deleteCommasBeforeClosers x := by
  induction l with
  | nil => rfl
  | cons c l ih =>
    have hcws := h c (List.mem_cons_self _ _)
    have hc : c ≠ ',' := by
      intro he
      rw [he] at hcws
      exact absurd hcws (by decide)
    rw [List.cons_append, delete_cons, if_neg hc,
      ih (fun d hd => h d (List.mem_cons_of_mem _ hd))]
    rfl

/-- The head surviving a whitespace drop is not whitespace. -/
theorem dropWhile_head_ws_false (s : List Char) (b : Char) (tail : List Char)
    (h : s.dropWhile jsWsChar = b :: tail) : jsWsChar b = false := by
  induction s with
  | nil => simp at h
  | cons c s ih =>
    rw [List.dropWhile_cons] at h
    by_cases hw : jsWsChar c
    · rw [if_pos hw] at h
      exact ih h
    · rw [if_neg hw] at h
      injection h with h1 h2
      subst h1
      exact Bool.eq_false_iff.mpr hw

/-- The head of the brace pass on input whose head is neither whitespace
nor a closing bracket is again neither. -/
theorem collapse_brace_head (b : Char) (tail : List Char) (hbw : jsWsChar b = false)
    (hbr : b ≠ ']') :
    ∃ h2 t2, collapseCommaClose '}' (b :: tail) = h2 :: t2 ∧
      jsWsChar h2 = false ∧ h2 ≠ ']' := by
  rw [collapse_cons '}' (by decide)]
  by_cases hb : b = ','
  · rw [if_pos hb]
    cases hds : tail.dropWhile jsWsChar with
    | nil => exact ⟨b, _, rfl, hbw, hbr⟩
    | cons b2 t2 =>
      dsimp only
      by_cases hb2 : b2 = '}'
      · rw [if_pos hb2]
        exact ⟨'}', _, rfl, by decide, by decide⟩
      · rw [if_neg hb2]
        exact ⟨b, _, rfl, hbw, hbr⟩
  · rw [if_neg hb]
    exact ⟨b, _, rfl, hbw, hbr⟩

/-- The bracket pass at a comma whose whitespace run ends in a bracket
consumes the match. -/
theorem pass2_comma_match (z tail2 : List Char)
    (hz : z.dropWhile jsWsChar = ']' :: tail2) :
    collapseCommaClose ']' (',' :: z) = ']' :: collapseCommaClose ']' tail2 := by
  rw [collapse_cons ']' (by decide), if_pos rfl, hz]
  dsimp only
  rw [if_pos rfl]

/-- The bracket pass at a comma with no bracket after the whitespace leaves
the comma in place. -/
theorem pass2_comma_nomatch (z : List Char)
    (hz : ∀ b tail, z.dropWhile jsWsChar = b :: tail → b ≠ ']') :
    collapseCommaClose ']' (',' :: z) = ',' :: collapseCommaClose ']' z := by
  rw [collapse_cons ']' (by decide), if_pos rfl]
  cases hds : z.dropWhile jsWsChar with
  | nil => rfl
  | cons b tail =>
    dsimp only
    rw [if_neg (hz b tail hds)]

/-- The passes leave the empty input unchanged. -/
theorem collapse_nil (close : Char) : collapseCommaClose close [] = [] := rfl

/-- The combined deletion leaves the empty input unchanged. -/
theorem delete_nil : deleteCommasBeforeClosers [] = [] := rfl

/-- The brace pass followed by the bracket pass deletes the same commas as
the combined single scan, bounded induction on the input length. -/
theorem twoPass_eq_combined_bounded (N : Nat) :
    ∀ cs : List Char, cs.length ≤ N →
      collapseCommaClose ']' (collapseCommaClose '}' cs) = deleteCommasBeforeClosers cs := by
  induction N with
  | zero =>
    intro cs h
    rw [List.length_eq_zero.mp (Nat.le_zero.mp h)]
    rfl
  | succ N IH =>
    intro cs hlen
    match cs with
    | [] => rfl
    | c :: s =>
      rw [List.length_cons] at hlen
      have hsN : s.length ≤ N := by omega
      by_cases hc : c = ','
      · subst hc
        rw [collapse_cons '}' (by decide), if_pos rfl, delete_cons, if_pos rfl]
        cases hds : s.dropWhile jsWsChar with
        | nil =>
          dsimp only
          have hallws : ∀ x ∈ s, jsWsChar x := List.dropWhile_eq_nil_iff.mp hds
          have hp1 : collapseCommaClose '}' s = s := by
            have h0 := collapse_ws_append '}' (by decide) s [] hallws
            rwa [List.append_nil, collapse_nil, List.append_nil] at h0
          have hp2 : collapseCommaClose ']' s = s := by
            have h0 := collapse_ws_append ']' (by decide) s [] hallws
            rwa [List.append_nil, collapse_nil, List.append_nil] at h0
          have hd : deleteCommasBeforeClosers s = s := by
            have h0 := delete_ws_append s [] hallws
            rwa [List.append_nil, delete_nil, List.append_nil] at h0
          rw [hp1, pass2_comma_nomatch s (fun b tail he => by rw [hds] at he; cases he),
            hp2, hd]
        | cons b tail =>
          dsimp only
          have hbw : jsWsChar b = false := dropWhile_head_ws_false s b tail hds
          have hsplit : s = s.takeWhile jsWsChar ++ (b :: tail) := by
            conv_lhs => rw [← List.takeWhile_append_dropWhile jsWsChar s]
            rw [hds]
          have htws : ∀ x ∈ s.takeWhile jsWsChar, jsWsChar x :=
            fun x hx => List.mem_takeWhile_imp hx
          have htailN : tail.length ≤ N := by
            have h1 : (s.dropWhile jsWsChar).length ≤ s.length :=
              (List.dropWhile_sublist _).length_le
            rw [hds] at h1
            simp only [List.length_cons] at h1
            omega
          by_cases hb : b = '}'
          · subst hb
            rw [if_pos rfl, if_pos (Or.inl rfl)]
            rw [collapse_cons ']' (by decide), if_neg (by decide)]
            rw [IH tail htailN]
          · by_cases hb2 : b = ']'
            · subst hb2
              rw [if_neg (by decide), if_pos (Or.inr rfl)]
              have hps : (collapseCommaClose '}' s).dropWhile jsWsChar =
                  ']' :: collapseCommaClose '}' tail := by
                conv_lhs => rw [hsplit]
                rw [collapse_ws_append '}' (by decide) _ _ htws,
                  collapse_cons '}' (by decide), if_neg (by decide),
                  dropWhile_ws_append _ _ htws, List.dropWhile_cons,
                  if_neg (by decide)]
              rw [pass2_comma_match _ _ hps, IH tail htailN]
            · rw [if_neg hb, if_neg (by rintro (rfl | rfl) <;> [exact hb rfl; exact hb2 rfl])]
              obtain ⟨h2, t2, hph, hh2w, hh2r⟩ := collapse_brace_head b tail hbw hb2
              have hps : (collapseCommaClose '}' s).dropWhile jsWsChar = h2 :: t2 := by
                conv_lhs => rw [hsplit]
                rw [collapse_ws_append '}' (by decide) _ _ htws, hph,
                  dropWhile_ws_append _ _ htws, List.dropWhile_cons, if_neg (by simp [hh2w])]
              rw [pass2_comma_nomatch _ (fun b' tail' he => by
                rw [hps] at he
                injection he with he1 he2
                rw [← he1]
                exact hh2r)]
              rw [IH s hsN]
      · rw [collapse_cons '}' (by decide), if_neg hc, delete_cons, if_neg hc,
          collapse_cons ']' (by decide), if_neg hc, IH s hsN]

/-- The two successive passes of the code equal the single combined scan of
the claim wording. -/
theorem twoPass_eq_combined (cs : List Char) :
    collapseCommaClose ']' (collapseCommaClose '}' cs) = deleteCommasBeforeClosers cs :=
  twoPass_eq_combined_bounded cs.length cs le_rfl

/-- C7: cleanJson is exactly the composition of the three described
transforms on the trimmed input - strip a leading code fence with its
matching trailing fence, delete every comma that immediately precedes (up
to whitespace) a closing brace or closing bracket, and replace every
ten-or-more-digit numeral after a colon by the literal 10 - together with
three concrete instances exercising each transform. -/
theorem c7_cleanjson_three_transforms :
    (∀ s : String, cleanJson s =
      ⟨capBigNumbers (deleteCommasBeforeClosers (stripFencePairSpec (jsTrim s.data)))⟩) ∧
    cleanJson ("```json\n\x7b\"a\": 1,\x7d\n```") = ("\x7b\"a\": 1\x7d") ∧
    cleanJson ("\x7b\"n\": 12345678901\x7d") = ("\x7b\"n\": 10\x7d") ∧
    cleanJson ("[1,2,]") = ("[1,2]") := by
  refine ⟨?_, rfl, rfl, rfl⟩
  intro s
  show String.mk (capBigNumbers (collapseCommaClose ']' (collapseCommaClose '}'
    (stripFencePairSpec (jsTrim s.data))))) = _
  rw [twoPass_eq_combined]

/-! ### C4: the TOML export-import round trip -/

/-- Char code round trip below 128. -/
theorem char_toNat_ofNat_small : ∀ m : Nat, m < 128 → (Char.ofNat m).toNat = m := by
  decide

/-- The decimal digit characters are digits. -/
theorem digitChar_isDigit : ∀ m : Nat, m < 10 → isDigitChar (digitChar m) = true := by
  decide

/-- Code of a decimal digit character. -/
theorem digitChar_toNat : ∀ m : Nat, m < 10 → (digitChar m).toNat = 48 + m := by
  decide

/-- Digit characters are never a newline. -/
theorem isDigit_ne_nl : ∀ c : Char, isDigitChar c = true → c ≠ '\n' := by
  intro c h he
  subst he
  exact absurd h (by decide)

/-- Hexadecimal digit round trip. -/
theorem hexVal_hexChar : ∀ m : Nat, m < 16 → hexVal (hexChar m) = some m := by
  decide

/-- Everything the fuel-based digit emitter produces is a digit. -/
theorem natToCharsGo_digits (fuel : Nat) :
    ∀ (n : Nat) (acc : List Char), (∀ c ∈ acc, isDigitChar c) →
      ∀ c ∈ natToCharsGo fuel n acc, isDigitChar c := by
  induction fuel with
  | zero => intro n acc h; exact h
  | succ fuel ih =>
    intro n acc h
    unfold natToCharsGo
    split_ifs with hn
    · intro c hc
      rw [List.mem_cons] at hc
      rcases hc with rfl | hc
      · exact digitChar_isDigit n hn
      · exact h c hc
    · refine ih (n / 10) _ (fun c hc => ?_)
      rw [List.mem_cons] at hc
      rcases hc with rfl | hc
      · exact digitChar_isDigit _ (Nat.mod_lt _ (by norm_num))
      · exact h c hc

/-- The digits of a natural number are all digits. -/
theorem natToChars_all_digits (n : Nat) : ∀ c ∈ natToChars n, isDigitChar c :=
  natToCharsGo_digits _ _ _ (by simp)

/-- The emitted accumulator is never emptied. -/
theorem natToCharsGo_ne_nil (fuel : Nat) :
    ∀ (n : Nat) (acc : List Char), acc ≠ [] → natToCharsGo fuel n acc ≠ [] := by
  induction fuel with
  | zero => intro n acc h; exact h
  | succ fuel ih =>
    intro n acc h
    unfold natToCharsGo
    split_ifs
    · exact List.cons_ne_nil _ _
    · exact ih _ _ (List.cons_ne_nil _ _)

/-- A natural number prints at least one digit. -/
theorem natToChars_ne_nil (n : Nat) : natToChars n ≠ [] := by
  unfold natToChars natToCharsGo
  split_ifs
  · exact List.cons_ne_nil _ _
  · exact natToCharsGo_ne_nil _ _ _ (List.cons_ne_nil _ _)

/-- Folding the digit accumulation over the emitted digits recovers the
number in front of the remaining accumulator. -/
theorem foldl_digits_go (fuel : Nat) :
    ∀ (n : Nat) (acc : List Char), n < fuel →
      (natToCharsGo fuel n acc).foldl (fun a c => a * 10 + (c.toNat - 48)) 0 =
        acc.foldl (fun a c => a * 10 + (c.toNat - 48)) n := by
  induction fuel with
  | zero => omega
  | succ fuel ih =>
    intro n acc hn
    unfold natToCharsGo
    split_ifs with h10
    · rw [List.foldl_cons, digitChar_toNat n h10]
      norm_num
    · have hdiv : n / 10 < fuel := by
        have h1 : n / 10 < n := Nat.div_lt_self (by omega) (by norm_num)
        omega
      rw [ih (n / 10) _ hdiv, List.foldl_cons, digitChar_toNat (n % 10) (Nat.mod_lt _ (by norm_num))]
      have : n / 10 * 10 + (48 + n % 10 - 48) = n := by omega
      rw [this]

/-- Printing then reading a natural number is the identity. -/
theorem digitsToNat_natToChars (n : Nat) : digitsToNat (natToChars n) = n := by
  unfold natToChars digitsToNat
  rw [foldl_digits_go (n + 1) n [] (by omega)]
  rfl

/-- Printing then reading an integer literal is the identity. -/
theorem parseIntLit_intToChars (n : Int) : parseIntLit (intToChars n) = some n := by
  unfold intToChars
  split_ifs with hneg
  · obtain ⟨d, r, hdr⟩ := List.exists_cons_of_ne_nil (natToChars_ne_nil (-n).toNat)
    unfold parseIntLit
    rw [hdr]
    dsimp only
    rw [if_pos rfl, if_pos ⟨by simp, List.all_eq_true.mpr
      (fun c hc => natToChars_all_digits _ c (hdr ▸ hc))⟩]
    rw [show d :: r = natToChars (-n).toNat from hdr.symm, digitsToNat_natToChars]
    congr 1
    omega
  · obtain ⟨d, r, hdr⟩ := List.exists_cons_of_ne_nil (natToChars_ne_nil n.toNat)
    have hd : isDigitChar d := natToChars_all_digits _ d (hdr ▸ List.mem_cons_self _ _)
    have hdm : d ≠ '-' := by
      intro he
      rw [he] at hd
      exact absurd hd (by decide)
    unfold parseIntLit
    rw [hdr]
    dsimp only
    rw [if_neg hdm, if_pos (List.all_eq_true.mpr
      (fun c hc => natToChars_all_digits _ c (hdr ▸ hc)))]
    rw [show d :: r = natToChars n.toNat from hdr.symm, digitsToNat_natToChars]
    congr 1
    omega

/-- Step equations of tomlUnescape, with symbolic tails. -/
theorem tomlUnescape_quote (X : List Char) : tomlUnescape ('"' :: X) = some ([], X) := rfl

/-- Step equation: escaped backslash. -/
theorem tomlUnescape_bs (X : List Char) :
    tomlUnescape ('\\' :: '\\' :: X) = (tomlUnescape X).map (fun p => ('\\' :: p.1, p.2)) := rfl

/-- Step equation: escaped quote. -/
theorem tomlUnescape_escq (X : List Char) :
    tomlUnescape ('\\' :: '"' :: X) = (tomlUnescape X).map (fun p => ('"' :: p.1, p.2)) := rfl

/-- Step equation: escaped backspace. -/
theorem tomlUnescape_escb (X : List Char) :
    tomlUnescape ('\\' :: 'b' :: X) = (tomlUnescape X).map (fun p => ('\x08' :: p.1, p.2)) := rfl

/-- Step equation: escaped tab. -/
theorem tomlUnescape_esct (X : List Char) :
    tomlUnescape ('\\' :: 't' :: X) = (tomlUnescape X).map (fun p => ('\t' :: p.1, p.2)) := rfl

/-- Step equation: escaped newline. -/
theorem tomlUnescape_escn (X : List Char) :
    tomlUnescape ('\\' :: 'n' :: X) = (tomlUnescape X).map (fun p => ('\n' :: p.1, p.2)) := rfl

/-- Step equation: escaped form feed. -/
theorem tomlUnescape_escf (X : List Char) :
    tomlUnescape ('\\' :: 'f' :: X) = (tomlUnescape X).map (fun p => ('\x0c' :: p.1, p.2)) := rfl

/-- Step equation: escaped carriage return. -/
theorem tomlUnescape_escr (X : List Char) :
    tomlUnescape ('\\' :: 'r' :: X) = (tomlUnescape X).map (fun p => ('\r' :: p.1, p.2)) := rfl

/-- Step equation: unicode escape. -/
theorem tomlUnescape_escu (a b c d : Char) (X : List Char) :
    tomlUnescape ('\\' :: 'u' :: a :: b :: c :: d :: X) =
      (match hexVal a, hexVal b, hexVal c, hexVal d with
       | some x, some y, some z, some w =>
         (tomlUnescape X).map
           (fun p => (Char.ofNat (((x * 16 + y) * 16 + z) * 16 + w) :: p.1, p.2))
       | _, _, _, _ => none) := rfl

/-- Step equation: an ordinary character passes through. -/
theorem tomlUnescape_other (c : Char) (X : List Char) (h1 : c ≠ '"') (h2 : c ≠ '\\') :
    tomlUnescape (c :: X) = (tomlUnescape X).map (fun p => (c :: p.1, p.2)) := by
  rw [tomlUnescape.eq_def]
  split <;> simp_all

/-- Unescaping an escaped character stream up to the closing quote recovers
the original characters and the remainder. -/
theorem tomlUnescape_escape (cs : List Char) (rest : List Char) :
    tomlUnescape (cs.flatMap tomlEscapeChar ++ '"' :: rest) = some (cs, rest) := by
  induction cs with
  | nil => rfl
  | cons c cs ih =>
    rw [List.flatMap_cons, List.append_assoc]
    obtain ⟨T, hT⟩ : ∃ T, cs.flatMap tomlEscapeChar ++ '"' :: rest = T := ⟨_, rfl⟩
    rw [hT] at ih ⊢
    unfold tomlEscapeChar
    split_ifs with h1 h2 h3 h4 h5 h6 h7 h8
    · subst h1
      rw [List.cons_append, List.cons_append, List.nil_append, tomlUnescape_bs, ih]
      rfl
    · subst h2
      rw [List.cons_append, List.cons_append, List.nil_append, tomlUnescape_escq, ih]
      rfl
    · subst h3
      rw [List.cons_append, List.cons_append, List.nil_append, tomlUnescape_escb, ih]
      rfl
    · subst h4
      rw [List.cons_append, List.cons_append, List.nil_append, tomlUnescape_esct, ih]
      rfl
    · subst h5
      rw [List.cons_append, List.cons_append, List.nil_append, tomlUnescape_escn, ih]
      rfl
    · subst h6
      rw [List.cons_append, List.cons_append, List.nil_append, tomlUnescape_escf, ih]
      rfl
    · subst h7
      rw [List.cons_append, List.cons_append, List.nil_append, tomlUnescape_escr, ih]
      rfl
    · have hlt : c.toNat < 256 := by omega
      have hhi : c.toNat / 16 < 16 := by omega
      have hlo : c.toNat % 16 < 16 := Nat.mod_lt _ (by norm_num)
      rw [List.cons_append, List.cons_append, List.cons_append, List.cons_append,
        List.cons_append, List.cons_append, List.nil_append, tomlUnescape_escu]
      rw [show hexVal '0' = some 0 from rfl, hexVal_hexChar _ hhi, hexVal_hexChar _ hlo]
      dsimp only
      rw [ih]
      have harith : ((0 * 16 + 0) * 16 + c.toNat / 16) * 16 + c.toNat % 16 = c.toNat := by
        omega
      rw [harith, Char.ofNat_toNat]
      rfl
    · rw [List.cons_append, List.nil_append, tomlUnescape_other c _ h2 h1, ih]
      rfl

/-- splitNl never returns an empty list of lines. -/
theorem splitNl_ne_nil (cs : List Char) : splitNl cs ≠ [] := by
  induction cs with
  | nil => simp [splitNl]
  | cons c rest ih =>
    simp only [splitNl]
    cases h : splitNl rest with
    | nil => simp
    | cons hd tl => by_cases hc : c = '\n' <;> simp [hc]

/-- A line without newlines splits to itself. -/
theorem splitNl_no_nl (l : List Char) (h : ∀ c ∈ l, c ≠ '\n') : splitNl l = [l] := by
  induction l with
  | nil => rfl
  | cons c rest ih =>
    have hr : splitNl rest = [rest] := ih (fun d hd => h d (List.mem_cons_of_mem _ hd))
    have hc : c ≠ '\n' := h c (List.mem_cons_self _ _)
    simp only [splitNl, hr]
    simp [hc]

/-- Splitting after a newline-free prefix and a newline. -/
theorem splitNl_append (l X : List Char) (h : ∀ c ∈ l, c ≠ '\n') :
    splitNl (l ++ '\n' :: X) = l :: splitNl X := by
  induction l with
  | nil =>
    simp only [List.nil_append, splitNl]
    cases hs : splitNl X with
    | nil => exact absurd hs (splitNl_ne_nil X)
    | cons hd tl => simp
  | cons c rest ih =>
    have hr := ih (fun d hd => h d (List.mem_cons_of_mem _ hd))
    have hc : c ≠ '\n' := h c (List.mem_cons_self _ _)
    simp only [List.cons_append, splitNl]
    cases hs : splitNl (rest ++ '\n' :: X) with
    | nil => rw [hr] at hs; cases hs
    | cons hd tl =>
      rw [hr] at hs
      injection hs with h1 h2
      subst h1
      subst h2
      simp [hc]

/-- splitNl inverts joinNlLines on nonempty lists of newline-free lines. -/
theorem splitNl_joinNl (ls : List (List Char)) (hne : ls ≠ [])
    (h : ∀ l ∈ ls, ∀ c ∈ l, c ≠ '\n') : splitNl (joinNlLines ls) = ls := by
  induction ls with
  | nil => exact absurd rfl hne
  | cons l ls ih =>
    cases ls with
    | nil => exact splitNl_no_nl l (h l (List.mem_cons_self _ _))
    | cons l2 ls2 =>
      rw [show joinNlLines (l :: l2 :: ls2) = l ++ '\n' :: joinNlLines (l2 :: ls2) from rfl]
      rw [splitNl_append l _ (h l (List.mem_cons_self _ _))]
      rw [ih (by simp) (fun m hm => h m (List.mem_cons_of_mem _ hm))]

/-- A low hexadecimal digit character is never a newline. -/
theorem hexChar_ne_nl : ∀ m : Nat, m < 16 → hexChar m ≠ '\n' := by decide

/-- The TOML escape of any character contains no newline. -/
theorem tomlEscapeChar_no_nl (c : Char) : ∀ d ∈ tomlEscapeChar c, d ≠ '\n' := by
  unfold tomlEscapeChar
  split_ifs with h1 h2 h3 h4 h5 h6 h7 h8
  · decide
  · decide
  · decide
  · decide
  · decide
  · decide
  · decide
  · intro d hd
    have hhi : c.toNat / 16 < 16 := by omega
    have hlo : c.toNat % 16 < 16 := Nat.mod_lt _ (by norm_num)
    simp only [List.mem_cons] at hd
    rcases hd with rfl | rfl | rfl | rfl | rfl | rfl | hd
    · decide
    · decide
    · decide
    · decide
    · exact hexChar_ne_nl _ hhi
    · exact hexChar_ne_nl _ hlo
    · simp at hd
  · intro d hd
    simp only [List.mem_cons] at hd
    rcases hd with rfl | hd
    · exact h5
    · simp at hd

/-- No newline inside a quoted TOML string literal. -/
theorem tomlQuote_no_nl (s : String) : ∀ d ∈ tomlQuote s, d ≠ '\n' := by
  intro d hd
  simp only [tomlQuote, List.mem_cons, List.mem_append] at hd
  rcases hd with rfl | hd | rfl | h
  · decide
  · obtain ⟨c, _, hc⟩ := List.mem_flatMap.mp hd
    exact tomlEscapeChar_no_nl c d hc
  · decide
  · simp at h

/-- No newline in a key = string line with a newline-free key. -/
theorem kvStrLine_no_nl (k v : String) (hk : ∀ c ∈ k.data, c ≠ '\n') :
    ∀ d ∈ kvStrLine k v, d ≠ '\n' := by
  intro d hd
  simp only [kvStrLine, List.mem_append, List.mem_cons] at hd
  rcases hd with hd | rfl | rfl | rfl | hd
  · exact hk d hd
  · decide
  · decide
  · decide
  · exact tomlQuote_no_nl v d hd

/-- No newline in a printed integer. -/
theorem intToChars_no_nl (n : Int) : ∀ d ∈ intToChars n, d ≠ '\n' := by
  intro d hd
  unfold intToChars at hd
  split_ifs at hd with h
  · rcases List.mem_cons.mp hd with rfl | hd
    · decide
    · exact isDigit_ne_nl d (natToChars_all_digits _ d hd)
  · exact isDigit_ne_nl d (natToChars_all_digits _ d hd)

/-- No newline in a key = integer line with a newline-free key. -/
theorem kvIntLine_no_nl (k : String) (n : Int) (hk : ∀ c ∈ k.data, c ≠ '\n') :
    ∀ d ∈ kvIntLine k n, d ≠ '\n' := by
  intro d hd
  simp only [kvIntLine, List.mem_append, List.mem_cons] at hd
  rcases hd with hd | rfl | rfl | rfl | hd
  · exact hk d hd
  · decide
  · decide
  · decide
  · exact intToChars_no_nl n d hd

/-- No newline in a key = empty-array line with a newline-free key. -/
theorem kvEmptyArrLine_no_nl (k : String) (hk : ∀ c ∈ k.data, c ≠ '\n') :
    ∀ d ∈ kvEmptyArrLine k, d ≠ '\n' := by
  intro d hd
  simp only [kvEmptyArrLine, List.mem_append, List.mem_cons] at hd
  rcases hd with hd | rfl | rfl | rfl | rfl | rfl | hd
  · exact hk d hd
  · decide
  · decide
  · decide
  · decide
  · decide
  · simp at hd

/-- No newline in any line of one exported video table. -/
theorem videoLines_no_nl (v : VideoData) : ∀ l ∈ videoLines v, ∀ d ∈ l, d ≠ '\n' := by
  have h1 : ∀ d ∈ arrayHeaderLine "videos", d ≠ '\n' := by decide
  intro l hl
  cases hu : v.url <;> cases hp : v.publishDate <;>
      simp only [videoLines, hu, hp, List.append_nil, List.nil_append, List.append_assoc,
        List.cons_append, List.mem_cons, List.mem_singleton, List.not_mem_nil,
        or_false] at hl
  · rcases hl with rfl | rfl | rfl
    · exact h1
    · exact kvStrLine_no_nl _ _ (by decide)
    · exact kvStrLine_no_nl _ _ (by decide)
  · rcases hl with rfl | rfl | rfl | rfl
    · exact h1
    · exact kvStrLine_no_nl _ _ (by decide)
    · exact kvStrLine_no_nl _ _ (by decide)
    · exact kvStrLine_no_nl _ _ (by decide)
  · rcases hl with rfl | rfl | rfl | rfl
    · exact h1
    · exact kvStrLine_no_nl _ _ (by decide)
    · exact kvStrLine_no_nl _ _ (by decide)
    · exact kvStrLine_no_nl _ _ (by decide)
  · rcases hl with rfl | rfl | rfl | rfl | rfl
    · exact h1
    · exact kvStrLine_no_nl _ _ (by decide)
    · exact kvStrLine_no_nl _ _ (by decide)
    · exact kvStrLine_no_nl _ _ (by decide)
    · exact kvStrLine_no_nl _ _ (by decide)

/-- No newline in any line of one exported node table. -/
theorem nodeLines_no_nl (n : GraphNode) : ∀ l ∈ nodeLines n, ∀ d ∈ l, d ≠ '\n' := by
  intro l hl
  simp only [nodeLines, List.mem_cons, List.not_mem_nil, or_false] at hl
  rcases hl with rfl | rfl | rfl | rfl | rfl | rfl | rfl
  · decide
  · exact kvStrLine_no_nl _ _ (by decide)
  · exact kvIntLine_no_nl _ _ (by decide)
  · exact kvIntLine_no_nl _ _ (by decide)
  · exact kvIntLine_no_nl _ _ (by decide)
  · exact kvStrLine_no_nl _ _ (by decide)
  · exact kvStrLine_no_nl _ _ (by decide)

/-- No newline in any line of one exported link table. -/
theorem linkLines_no_nl (lk : GraphLink) : ∀ l ∈ linkLines lk, ∀ d ∈ l, d ≠ '\n' := by
  intro l hl
  simp only [linkLines, List.mem_cons, List.not_mem_nil, or_false] at hl
  rcases hl with rfl | rfl | rfl | rfl
  · decide
  · exact kvStrLine_no_nl _ _ (by decide)
  · exact kvStrLine_no_nl _ _ (by decide)
  · exact kvIntLine_no_nl _ _ (by decide)

/-- No newline in any exported line. -/
theorem exportTomlLines_no_nl (ts : String) (inp : ExportInput) :
    ∀ l ∈ exportTomlLines ts inp, ∀ d ∈ l, d ≠ '\n' := by
  unfold exportTomlLines
  simp only [List.forall_mem_append]
  refine ⟨⟨⟨⟨⟨⟨⟨⟨?_, ?_⟩, ?_⟩, ?_⟩, ?_⟩, ?_⟩, ?_⟩, ?_⟩, ?_⟩
  · split_ifs
    · intro l hl
      simp only [List.mem_singleton] at hl
      subst hl
      exact kvEmptyArrLine_no_nl _ (by decide)
    · intro l hl
      simp at hl
  · intro l hl
    simp only [List.mem_cons, List.not_mem_nil, or_false] at hl
    rcases hl with rfl | rfl | rfl
    · decide
    · exact kvStrLine_no_nl _ _ (by decide)
    · exact kvStrLine_no_nl _ _ (by decide)
  · intro l hl
    obtain ⟨v, _, hv⟩ := List.mem_flatMap.mp hl
    exact videoLines_no_nl v l hv
  · intro l hl
    simp only [List.mem_singleton] at hl
    subst hl
    decide
  · split_ifs
    · intro l hl
      simp only [List.mem_singleton] at hl
      subst hl
      exact kvEmptyArrLine_no_nl _ (by decide)
    · intro l hl
      simp at hl
  · split_ifs
    · intro l hl
      simp only [List.mem_singleton] at hl
      subst hl
      exact kvEmptyArrLine_no_nl _ (by decide)
    · intro l hl
      simp at hl
  · intro l hl
    simp only [List.mem_singleton] at hl
    subst hl
    exact kvStrLine_no_nl _ _ (by decide)
  · intro l hl
    obtain ⟨n, _, hn⟩ := List.mem_flatMap.mp hl
    exact nodeLines_no_nl n l hn
  · intro l hl
    obtain ⟨lk, _, hlk⟩ := List.mem_flatMap.mp hl
    exact linkLines_no_nl lk l hlk

/-- The exported document always has at least one line. -/
theorem exportTomlLines_ne_nil (ts : String) (inp : ExportInput) :
    exportTomlLines ts inp ≠ [] := by
  unfold exportTomlLines
  split_ifs <;> simp

/-- takeWhile and dropWhile on an all-satisfying prefix before a failing head. -/
theorem takeWhile_all_append (p : Char → Bool) (l : List Char) (x : Char) (r : List Char)
    (hall : ∀ c ∈ l, p c = true) (hx : p x = false) :
    (l ++ x :: r).takeWhile p = l ∧ (l ++ x :: r).dropWhile p = x :: r := by
  induction l with
  | nil => simp [List.takeWhile_cons, List.dropWhile_cons, hx]
  | cons c cs ih =>
    have hc : p c = true := hall c (List.mem_cons_self _ _)
    have h2 := ih (fun d hd => hall d (List.mem_cons_of_mem _ hd))
    simp only [List.cons_append, List.takeWhile_cons, List.dropWhile_cons, hc, if_true,
      h2.1, h2.2]
    simp

/-- A bare-key character is not an opening bracket. -/
theorem bareKeyChar_ne_bracket (c : Char) (h : bareKeyChar c = true) : ('[' : Char) ≠ c := by
  intro he
  rw [← he] at h
  exact absurd h (by decide)

/-- A line beginning with a bare key does not start with a bracket. -/
theorem listStartsWith_bracket (ps l X : List Char) (hne : l ≠ [])
    (hall : ∀ c ∈ l, bareKeyChar c = true) :
    listStartsWith ('[' :: ps) (l ++ X) = false := by
  cases l with
  | nil => exact absurd rfl hne
  | cons c cs =>
    have hc := bareKeyChar_ne_bracket c (hall c (List.mem_cons_self _ _))
    simp [listStartsWith, hc]

/-- Parsing the value token of a quoted string. -/
theorem parseValueToken_quote (k v : String) :
    parseValueToken k (tomlQuote v) = some (.kvString k v) := by
  simp only [tomlQuote, parseValueToken]
  rw [tomlUnescape_escape]
  simp

/-- A digit is not a space or tab. -/
theorem isDigit_not_spaceTab (c : Char) (h : isDigitChar c = true) : spaceTab c = false := by
  cases hst : spaceTab c with
  | false => rfl
  | true =>
    unfold spaceTab at hst
    simp only [Bool.or_eq_true, decide_eq_true_eq] at hst
    rcases hst with rfl | rfl
    · exact absurd h (by decide)
    · exact absurd h (by decide)

/-- Parsing the value token of a printed integer. -/
theorem parseValueToken_int (k : String) (n : Int) :
    parseValueToken k (intToChars n) = some (.kvInt k n) := by
  obtain ⟨c, r, hcr, hc1, hc2⟩ :
      ∃ c r, intToChars n = c :: r ∧ c ≠ '"' ∧ c ≠ '[' := by
    unfold intToChars
    split_ifs with h
    · exact ⟨'-', _, rfl, by decide, by decide⟩
    · cases hnc : natToChars n.toNat with
      | nil => exact absurd hnc (natToChars_ne_nil _)
      | cons c r =>
        have hd : isDigitChar c = true :=
          natToChars_all_digits _ c (by rw [hnc]; exact List.mem_cons_self _ _)
        refine ⟨c, r, rfl, ?_, ?_⟩
        · intro he; rw [he] at hd; exact absurd hd (by decide)
        · intro he; rw [he] at hd; exact absurd hd (by decide)
  have hlit := parseIntLit_intToChars n
  rw [hcr] at hlit ⊢
  simp only [parseValueToken, hc1, hc2, if_false, hlit]
  rfl

/-- Parsing the empty-array token. -/
theorem parseValueToken_emptyArr (k : String) :
    parseValueToken k ['[', ']'] = some (.kvEmptyArr k) := rfl

/-- A printed integer does not start with space or tab. -/
theorem intToChars_dropWhile (n : Int) :
    (intToChars n).dropWhile spaceTab = intToChars n := by
  unfold intToChars
  split_ifs with h
  · rfl
  · cases hnc : natToChars n.toNat with
    | nil => rfl
    | cons c r =>
      have hd : isDigitChar c = true :=
        natToChars_all_digits _ c (by rw [hnc]; exact List.mem_cons_self _ _)
      simp [List.dropWhile_cons, isDigit_not_spaceTab c hd]

/-- Classification of a well-formed key = value line, for a value token
that parses and does not start with layout. -/
theorem classifyLine_kv (k : String) (val : List Char) (res : TomlLine) (hk1 : k.data ≠ [])
    (hk2 : ∀ c ∈ k.data, bareKeyChar c = true)
    (hvd : val.dropWhile spaceTab = val)
    (hval : parseValueToken k val = some res) :
    classifyLine (k.data ++ ' ' :: '=' :: ' ' :: val) = some res := by
  have htd := takeWhile_all_append bareKeyChar k.data ' ' ('=' :: ' ' :: val) hk2 (by decide)
  have hsw1 : listStartsWith ['[', '['] (k.data ++ ' ' :: '=' :: ' ' :: val) = false :=
    listStartsWith_bracket _ _ _ hk1 hk2
  have hsw2 : listStartsWith ['['] (k.data ++ ' ' :: '=' :: ' ' :: val) = false :=
    listStartsWith_bracket _ _ _ hk1 hk2
  have hdw1 : List.dropWhile spaceTab (' ' :: '=' :: ' ' :: val) = '=' :: ' ' :: val := rfl
  have hdw2 : List.dropWhile spaceTab (' ' :: val) = val := by
    rw [show List.dropWhile spaceTab (' ' :: val) = List.dropWhile spaceTab val from rfl, hvd]
  have hval2 : parseValueToken ⟨k.data⟩ val = some res := hval
  simp only [classifyLine, hsw1, hsw2, Bool.false_eq_true, if_false, htd.1, htd.2, hk1,
    hdw1, hdw2, hval2]

/-- Classification of an exported key = string line. -/
theorem classifyLine_kvStr (k v : String) (hk1 : k.data ≠ [])
    (hk2 : ∀ c ∈ k.data, bareKeyChar c = true) :
    classifyLine (kvStrLine k v) = some (.kvString k v) :=
  classifyLine_kv k _ _ hk1 hk2 rfl (parseValueToken_quote k v)

/-- Classification of an exported key = integer line. -/
theorem classifyLine_kvInt (k : String) (n : Int) (hk1 : k.data ≠ [])
    (hk2 : ∀ c ∈ k.data, bareKeyChar c = true) :
    classifyLine (kvIntLine k n) = some (.kvInt k n) :=
  classifyLine_kv k _ _ hk1 hk2 (intToChars_dropWhile n) (parseValueToken_int k n)

/-- Classification of an exported key = empty-array line. -/
theorem classifyLine_kvEmptyArr (k : String) (hk1 : k.data ≠ [])
    (hk2 : ∀ c ∈ k.data, bareKeyChar c = true) :
    classifyLine (kvEmptyArrLine k) = some (.kvEmptyArr k) :=
  classifyLine_kv k _ _ hk1 hk2 rfl (parseValueToken_emptyArr k)

/-- Classification of the concrete header and array-header lines. -/
theorem classifyLine_header_meta :
    classifyLine (headerLine "meta") = some (.header ["meta"]) := rfl

/-- Classification of the graph header. -/
theorem classifyLine_header_graph :
    classifyLine (headerLine "graph") = some (.header ["graph"]) := rfl

/-- Classification of the videos array header. -/
theorem classifyLine_arr_videos :
    classifyLine (arrayHeaderLine "videos") = some (.arrayHeader ["videos"]) := rfl

/-- Classification of the nodes array header. -/
theorem classifyLine_arr_nodes :
    classifyLine (arrayHeaderLine "graph.nodes") =
      some (.arrayHeader ["graph", "nodes"]) := rfl

/-- Classification of the links array header. -/
theorem classifyLine_arr_links :
    classifyLine (arrayHeaderLine "graph.links") =
      some (.arrayHeader ["graph", "links"]) := rfl

/-- classifyAll of a single line. -/
theorem classifyAll_singleton (l : List Char) (tl : TomlLine)
    (h : classifyLine l = some tl) : classifyAll [l] = some [tl] := by
  simp [classifyAll, h]

/-- classifyAll distributes over append. -/
theorem classifyAll_append (a b : List (List Char)) (ta tb : List TomlLine)
    (ha : classifyAll a = some ta) (hb : classifyAll b = some tb) :
    classifyAll (a ++ b) = some (ta ++ tb) := by
  induction a generalizing ta with
  | nil =>
    simp only [classifyAll] at ha
    cases ha
    simpa using hb
  | cons l ls ih =>
    rw [List.cons_append]
    simp only [classifyAll] at ha ⊢
    cases hcl : classifyLine l with
    | none => rw [hcl] at ha; simp at ha
    | some tl =>
      rw [hcl] at ha
      cases hca : classifyAll ls with
      | none => rw [hca] at ha; simp at ha
      | some r =>
        rw [hca] at ha
        simp only [Option.map_some'] at ha
        cases ha
        dsimp only
        rw [ih r hca]
        simp

/-- Classified image of one exported video table. -/
theorem classifyAll_video (v : VideoData) :
    classifyAll (videoLines v) = some (videoTLines v) := by
  have h2 := classifyLine_kvStr "title" v.title (by decide) (by decide)
  have h3 := classifyLine_kvStr "summary" v.summary (by decide) (by decide)
  have hhead : classifyAll [arrayHeaderLine "videos", kvStrLine "title" v.title,
      kvStrLine "summary" v.summary] =
      some [.arrayHeader ["videos"], .kvString "title" v.title,
            .kvString "summary" v.summary] := by
    simp [classifyAll, classifyLine_arr_videos, h2, h3]
  have hu2 : classifyAll (match v.url with
        | some u => [kvStrLine "url" u]
        | none => []) =
      some (match v.url with
        | some u => [TomlLine.kvString "url" u]
        | none => []) := by
    cases v.url with
    | none => rfl
    | some u =>
      exact classifyAll_singleton _ _ (classifyLine_kvStr "url" u (by decide) (by decide))
  have hp2 : classifyAll (match v.publishDate with
        | some d => [kvStrLine "publishDate" d]
        | none => []) =
      some (match v.publishDate with
        | some d => [TomlLine.kvString "publishDate" d]
        | none => []) := by
    cases v.publishDate with
    | none => rfl
    | some d =>
      exact classifyAll_singleton _ _
        (classifyLine_kvStr "publishDate" d (by decide) (by decide))
  unfold videoLines videoTLines
  exact classifyAll_append _ _ _ _ (classifyAll_append _ _ _ _ hhead hu2) hp2

/-- Classified image of one exported node table. -/
theorem classifyAll_node (n : GraphNode) :
    classifyAll (nodeLines n) = some (nodeTLines n) := by
  have h1 := classifyLine_kvStr "id" n.id (by decide) (by decide)
  have h2 := classifyLine_kvInt "group" n.group (by decide) (by decide)
  have h3 := classifyLine_kvInt "relevance" n.relevance (by decide) (by decide)
  have h4 := classifyLine_kvInt "popularity" n.popularity (by decide) (by decide)
  have h5 := classifyLine_kvStr "desc" (n.desc.getD "") (by decide) (by decide)
  have h6 := classifyLine_kvStr "longDescription" (n.longDescription.getD "")
    (by decide) (by decide)
  simp [nodeLines, nodeTLines, classifyAll, classifyLine_arr_nodes, h1, h2, h3, h4, h5, h6]

/-- Classified image of one exported link table. -/
theorem classifyAll_link (lk : GraphLink) :
    classifyAll (linkLines lk) = some (linkTLines lk) := by
  have h1 := classifyLine_kvStr "source" lk.source (by decide) (by decide)
  have h2 := classifyLine_kvStr "target" lk.target (by decide) (by decide)
  have h3 := classifyLine_kvInt "value" lk.value (by decide) (by decide)
  simp [linkLines, linkTLines, classifyAll, classifyLine_arr_links, h1, h2, h3]

/-- Classified image of the videos of the export. -/
theorem classifyAll_flat_video (vs : List VideoData) :
    classifyAll (vs.flatMap videoLines) = some (vs.flatMap videoTLines) := by
  induction vs with
  | nil => rfl
  | cons v vs ih =>
    rw [List.flatMap_cons, List.flatMap_cons]
    exact classifyAll_append _ _ _ _ (classifyAll_video v) ih

/-- Classified image of the nodes of the export. -/
theorem classifyAll_flat_node (ns : List GraphNode) :
    classifyAll (ns.flatMap nodeLines) = some (ns.flatMap nodeTLines) := by
  induction ns with
  | nil => rfl
  | cons n ns ih =>
    rw [List.flatMap_cons, List.flatMap_cons]
    exact classifyAll_append _ _ _ _ (classifyAll_node n) ih

/-- Classified image of the links of the export. -/
theorem classifyAll_flat_link (ls : List GraphLink) :
    classifyAll (ls.flatMap linkLines) = some (ls.flatMap linkTLines) := by
  induction ls with
  | nil => rfl
  | cons l ls ih =>
    rw [List.flatMap_cons, List.flatMap_cons]
    exact classifyAll_append _ _ _ _ (classifyAll_link l) ih

/-- Classified image of the whole exported document. -/
theorem classifyAll_export (ts : String) (inp : ExportInput) :
    classifyAll (exportTomlLines ts inp) = some (exportTLines ts inp) := by
  have hA : classifyAll (if inp.videos = [] then [kvEmptyArrLine "videos"] else []) =
      some (if inp.videos = [] then [TomlLine.kvEmptyArr "videos"] else []) := by
    split_ifs
    · exact classifyAll_singleton _ _ (classifyLine_kvEmptyArr "videos" (by decide) (by decide))
    · rfl
  have hB : classifyAll [headerLine "meta", kvStrLine "timestamp" ts,
      kvStrLine "url" inp.url] =
      some [TomlLine.header ["meta"], .kvString "timestamp" ts, .kvString "url" inp.url] := by
    have h1 := classifyLine_kvStr "timestamp" ts (by decide) (by decide)
    have h2 := classifyLine_kvStr "url" inp.url (by decide) (by decide)
    simp [classifyAll, classifyLine_header_meta, h1, h2]
  have hD : classifyAll [headerLine "graph"] = some [TomlLine.header ["graph"]] :=
    classifyAll_singleton _ _ classifyLine_header_graph
  have hE : classifyAll (if inp.graph.nodes = [] then [kvEmptyArrLine "nodes"] else []) =
      some (if inp.graph.nodes = [] then [TomlLine.kvEmptyArr "nodes"] else []) := by
    split_ifs
    · exact classifyAll_singleton _ _ (classifyLine_kvEmptyArr "nodes" (by decide) (by decide))
    · rfl
  have hF : classifyAll (if inp.graph.links = [] then [kvEmptyArrLine "links"] else []) =
      some (if inp.graph.links = [] then [TomlLine.kvEmptyArr "links"] else []) := by
    split_ifs
    · exact classifyAll_singleton _ _ (classifyLine_kvEmptyArr "links" (by decide) (by decide))
    · rfl
  have hG : classifyAll [kvStrLine "summary" inp.graph.summary] =
      some [TomlLine.kvString "summary" inp.graph.summary] :=
    classifyAll_singleton _ _ (classifyLine_kvStr "summary" _ (by decide) (by decide))
  unfold exportTomlLines exportTLines
  exact classifyAll_append _ _ _ _ (classifyAll_append _ _ _ _ (classifyAll_append _ _ _ _
    (classifyAll_append _ _ _ _ (classifyAll_append _ _ _ _ (classifyAll_append _ _ _ _
      (classifyAll_append _ _ _ _ (classifyAll_append _ _ _ _ hA hB)
        (classifyAll_flat_video inp.videos)) hD) hE) hF) hG)
    (classifyAll_flat_node inp.graph.nodes)) (classifyAll_flat_link inp.graph.links)

/-- takeKvStr consumes a matching key = string line. -/
theorem takeKvStr_take (k v : String) (ls : List TomlLine) :
    takeKvStr k (.kvString k v :: ls) = some (v, ls) := by
  simp [takeKvStr]

/-- takeKvInt consumes a matching key = integer line. -/
theorem takeKvInt_take (k : String) (n : Int) (ls : List TomlLine) :
    takeKvInt k (.kvInt k n :: ls) = some (n, ls) := by
  simp [takeKvInt]

/-- takeOptKvStr consumes a matching key = string line. -/
theorem takeOptKvStr_take (k v : String) (ls : List TomlLine) :
    takeOptKvStr k (.kvString k v :: ls) = (some v, ls) := by
  simp [takeOptKvStr]

/-- takeOptKvStr leaves a key = string line with a different key. -/
theorem takeOptKvStr_diff (k k2 v : String) (ls : List TomlLine) (h : k2 ≠ k) :
    takeOptKvStr k (.kvString k2 v :: ls) = (none, .kvString k2 v :: ls) := by
  simp [takeOptKvStr, h]

/-- takeOptKvStr leaves a list that does not start with a key = string line. -/
theorem takeOptKvStr_notkv (k : String) (ls : List TomlLine)
    (h : ∀ k2 v t, ls ≠ .kvString k2 v :: t) : takeOptKvStr k ls = (none, ls) := by
  cases ls with
  | nil => rfl
  | cons hd tl =>
    cases hd with
    | kvString k2 v => exact absurd rfl (h k2 v tl)
    | header p => rfl
    | arrayHeader p => rfl
    | kvInt k2 n => rfl
    | kvEmptyArr k2 => rfl

/-- takeOptEmptyArr consumes a matching marker line. -/
theorem takeOptEmptyArr_take (k : String) (ls : List TomlLine) :
    takeOptEmptyArr k (.kvEmptyArr k :: ls) = (true, ls) := by
  simp [takeOptEmptyArr]

/-- takeOptEmptyArr leaves a marker line with a different key. -/
theorem takeOptEmptyArr_diff (k k2 : String) (ls : List TomlLine) (h : k2 ≠ k) :
    takeOptEmptyArr k (.kvEmptyArr k2 :: ls) = (false, .kvEmptyArr k2 :: ls) := by
  simp [takeOptEmptyArr, h]

/-- takeOptEmptyArr leaves a list that does not start with a marker line. -/
theorem takeOptEmptyArr_not (k : String) (ls : List TomlLine)
    (h : ∀ k2 t, ls ≠ .kvEmptyArr k2 :: t) : takeOptEmptyArr k ls = (false, ls) := by
  cases ls with
  | nil => rfl
  | cons hd tl =>
    cases hd with
    | kvEmptyArr k2 => exact absurd rfl (h k2 tl)
    | header p => rfl
    | arrayHeader p => rfl
    | kvInt k2 n => rfl
    | kvString k2 v => rfl

/-- takeOptEmptyArr passes over a table header line. -/
theorem takeOptEmptyArr_header (k : String) (p : List String) (ls : List TomlLine) :
    takeOptEmptyArr k (.header p :: ls) = (false, .header p :: ls) := rfl

/-- takeOptEmptyArr passes over a key = string line. -/
theorem takeOptEmptyArr_kvStr (k k2 v : String) (ls : List TomlLine) :
    takeOptEmptyArr k (.kvString k2 v :: ls) = (false, .kvString k2 v :: ls) := rfl

/-- parseVideoFields on the exported field lines of one video. -/
theorem parseVideoFields_spec (v : VideoData) (rest : List TomlLine)
    (hks : ∀ k2 x t, rest ≠ .kvString k2 x :: t) :
    parseVideoFields (.kvString "title" v.title :: .kvString "summary" v.summary ::
      ((match v.url with
          | some u => [TomlLine.kvString "url" u]
          | none => []) ++
       ((match v.publishDate with
          | some d => [TomlLine.kvString "publishDate" d]
          | none => []) ++ rest))) = some (v, rest) := by
  have hopt1 : takeOptKvStr "url"
      ((match v.url with
          | some u => [TomlLine.kvString "url" u]
          | none => []) ++
       ((match v.publishDate with
          | some d => [TomlLine.kvString "publishDate" d]
          | none => []) ++ rest)) =
      (v.url,
       (match v.publishDate with
          | some d => [TomlLine.kvString "publishDate" d]
          | none => []) ++ rest) := by
    cases v.url with
    | some u => simpa using takeOptKvStr_take "url" u _
    | none =>
      simp only [List.nil_append]
      cases v.publishDate with
      | some d => simpa using takeOptKvStr_diff "url" "publishDate" d rest (by decide)
      | none => simpa using takeOptKvStr_notkv "url" rest hks
  have hopt2 : takeOptKvStr "publishDate"
      ((match v.publishDate with
          | some d => [TomlLine.kvString "publishDate" d]
          | none => []) ++ rest) = (v.publishDate, rest) := by
    cases v.publishDate with
    | some d => simpa using takeOptKvStr_take "publishDate" d rest
    | none => simpa using takeOptKvStr_notkv "publishDate" rest hks
  simp only [parseVideoFields, Option.bind_eq_bind, Option.some_bind, takeKvStr_take,
    hopt1, hopt2]

/-- parseNodeFields on the exported field lines of one node. -/
theorem parseNodeFields_spec (n : GraphNode) (rest : List TomlLine) :
    parseNodeFields (.kvString "id" n.id :: .kvInt "group" n.group ::
      .kvInt "relevance" n.relevance :: .kvInt "popularity" n.popularity ::
      .kvString "desc" (n.desc.getD "") ::
      .kvString "longDescription" (n.longDescription.getD "") :: rest) =
      some (normNode n, rest) := by
  simp only [parseNodeFields, Option.bind_eq_bind, Option.some_bind, takeKvStr_take,
    takeKvInt_take]
  rfl

/-- parseLinkFields on the exported field lines of one link. -/
theorem parseLinkFields_spec (lk : GraphLink) (rest : List TomlLine) :
    parseLinkFields (.kvString "source" lk.source :: .kvString "target" lk.target ::
      .kvInt "value" lk.value :: rest) = some (lk, rest) := by
  simp only [parseLinkFields, Option.bind_eq_bind, Option.some_bind, takeKvStr_take,
    takeKvInt_take]

/-- parseVideoBlocks consumes exactly the exported video tables. -/
theorem parseVideoBlocks_flat (vs : List VideoData) (rest : List TomlLine)
    (hstop : ∀ f : Nat, parseVideoBlocks (f + 1) rest = some ([], rest))
    (hks : ∀ k2 x t, rest ≠ .kvString k2 x :: t) :
    ∀ fuel, vs.length < fuel →
      parseVideoBlocks fuel (vs.flatMap videoTLines ++ rest) = some (vs, rest) := by
  induction vs with
  | nil =>
    intro fuel hf
    cases fuel with
    | zero => omega
    | succ f => simpa using hstop f
  | cons v vs ih =>
    intro fuel hf
    cases fuel with
    | zero => omega
    | succ f =>
      have hL : (v :: vs).flatMap videoTLines ++ rest =
          TomlLine.arrayHeader ["videos"] :: (.kvString "title" v.title ::
            .kvString "summary" v.summary ::
            ((match v.url with
                | some u => [TomlLine.kvString "url" u]
                | none => []) ++
             ((match v.publishDate with
                | some d => [TomlLine.kvString "publishDate" d]
                | none => []) ++ (vs.flatMap videoTLines ++ rest)))) := by
        simp [videoTLines, List.append_assoc]
      rw [hL]
      have hks2 : ∀ k2 x t, vs.flatMap videoTLines ++ rest ≠ .kvString k2 x :: t := by
        cases vs with
        | nil => simpa using hks
        | cons v2 vs2 =>
          intro k2 x t he
          rw [show (v2 :: vs2).flatMap videoTLines ++ rest =
            TomlLine.arrayHeader ["videos"] :: ((videoTLines v2).tail ++
              (vs2.flatMap videoTLines ++ rest)) from by
            simp [videoTLines, List.append_assoc]] at he
          exact absurd he (by simp)
      simp only [parseVideoBlocks]
      rw [parseVideoFields_spec v _ hks2]
      dsimp only
      rw [ih f (by simpa using Nat.lt_of_succ_lt_succ hf)]
      rfl

/-- parseNodeBlocks consumes exactly the exported node tables. -/
theorem parseNodeBlocks_flat (ns : List GraphNode) (rest : List TomlLine)
    (hstop : ∀ f : Nat, parseNodeBlocks (f + 1) rest = some ([], rest)) :
    ∀ fuel, ns.length < fuel →
      parseNodeBlocks fuel (ns.flatMap nodeTLines ++ rest) = some (ns.map normNode, rest) := by
  induction ns with
  | nil =>
    intro fuel hf
    cases fuel with
    | zero => omega
    | succ f => simpa using hstop f
  | cons n ns ih =>
    intro fuel hf
    cases fuel with
    | zero => omega
    | succ f =>
      have hL : (n :: ns).flatMap nodeTLines ++ rest =
          TomlLine.arrayHeader ["graph", "nodes"] :: (.kvString "id" n.id ::
            .kvInt "group" n.group :: .kvInt "relevance" n.relevance ::
            .kvInt "popularity" n.popularity :: .kvString "desc" (n.desc.getD "") ::
            .kvString "longDescription" (n.longDescription.getD "") ::
            (ns.flatMap nodeTLines ++ rest)) := by
        simp [nodeTLines, List.append_assoc]
      rw [hL]
      simp only [parseNodeBlocks]
      rw [parseNodeFields_spec n _]
      dsimp only
      rw [ih f (by simpa using Nat.lt_of_succ_lt_succ hf)]
      rfl

/-- parseLinkBlocks consumes exactly the exported link tables. -/
theorem parseLinkBlocks_flat (lks : List GraphLink) (rest : List TomlLine)
    (hstop : ∀ f : Nat, parseLinkBlocks (f + 1) rest = some ([], rest)) :
    ∀ fuel, lks.length < fuel →
      parseLinkBlocks fuel (lks.flatMap linkTLines ++ rest) = some (lks, rest) := by
  induction lks with
  | nil =>
    intro fuel hf
    cases fuel with
    | zero => omega
    | succ f => simpa using hstop f
  | cons lk lks ih =>
    intro fuel hf
    cases fuel with
    | zero => omega
    | succ f =>
      have hL : (lk :: lks).flatMap linkTLines ++ rest =
          TomlLine.arrayHeader ["graph", "links"] :: (.kvString "source" lk.source ::
            .kvString "target" lk.target :: .kvInt "value" lk.value ::
            (lks.flatMap linkTLines ++ rest)) := by
        simp [linkTLines, List.append_assoc]
      rw [hL]
      simp only [parseLinkBlocks]
      rw [parseLinkFields_spec lk _]
      dsimp only
      rw [ih f (by simpa using Nat.lt_of_succ_lt_succ hf)]
      rfl

/-- A list is no longer than its flat map by a nonempty-image function. -/
theorem flatMap_len_ge {α β : Type} (f : α → List β) (l : List α)
    (h : ∀ x, 1 ≤ (f x).length) : l.length ≤ (l.flatMap f).length := by
  induction l with
  | nil => simp
  | cons a l ih =>
    simp only [List.flatMap_cons, List.length_append, List.length_cons]
    have := h a
    omega

/-- One exported video table is nonempty. -/
theorem videoTLines_len (v : VideoData) : 1 ≤ (videoTLines v).length := by
  simp only [videoTLines, List.length_append, List.length_cons, List.length_nil]
  omega

/-- One exported node table is nonempty. -/
theorem nodeTLines_len (n : GraphNode) : 1 ≤ (nodeTLines n).length := by
  simp only [nodeTLines, List.length_cons, List.length_nil]
  omega

/-- One exported link table is nonempty. -/
theorem linkTLines_len (lk : GraphLink) : 1 ≤ (linkTLines lk).length := by
  simp only [linkTLines, List.length_cons, List.length_nil]
  omega

/-- The length-based fuel of the importer covers the block list. -/
theorem blocks_fuel {α β : Type} (f : α → List β) (l : List α) (rest : List β)
    (h : ∀ x, 1 ≤ (f x).length) : l.length < (l.flatMap f ++ rest).length + 1 := by
  have h1 := flatMap_len_ge f l h
  have h2 := List.length_append (l.flatMap f) rest
  omega

/-- parseVideoBlocks at the fuel the importer passes. -/
theorem parseVideoBlocks_run (vs : List VideoData) (rest : List TomlLine)
    (hstop : ∀ f : Nat, parseVideoBlocks (f + 1) rest = some ([], rest))
    (hks : ∀ k2 x t, rest ≠ .kvString k2 x :: t) :
    parseVideoBlocks ((vs.flatMap videoTLines ++ rest).length + 1)
      (vs.flatMap videoTLines ++ rest) = some (vs, rest) :=
  parseVideoBlocks_flat vs rest hstop hks _ (blocks_fuel _ _ _ videoTLines_len)

/-- parseNodeBlocks at the fuel the importer passes. -/
theorem parseNodeBlocks_run (ns : List GraphNode) (rest : List TomlLine)
    (hstop : ∀ f : Nat, parseNodeBlocks (f + 1) rest = some ([], rest)) :
    parseNodeBlocks ((ns.flatMap nodeTLines ++ rest).length + 1)
      (ns.flatMap nodeTLines ++ rest) = some (ns.map normNode, rest) :=
  parseNodeBlocks_flat ns rest hstop _ (blocks_fuel _ _ _ nodeTLines_len)

/-- parseLinkBlocks at the fuel the importer passes. -/
theorem parseLinkBlocks_run (lks : List GraphLink) (rest : List TomlLine)
    (hstop : ∀ f : Nat, parseLinkBlocks (f + 1) rest = some ([], rest)) :
    parseLinkBlocks ((lks.flatMap linkTLines ++ rest).length + 1)
      (lks.flatMap linkTLines ++ rest) = some (lks, rest) :=
  parseLinkBlocks_flat lks rest hstop _ (blocks_fuel _ _ _ linkTLines_len)

set_option maxHeartbeats 2000000 in
theorem parseTomlDoc_export (ts : String) (inp : ExportInput) :
    parseTomlDoc (exportTLines ts inp) =
      some { metaUrl := inp.url, timestamp := ts, videos := inp.videos,
             graph := normGraph inp.graph } := by
  obtain ⟨url, videos, ⟨nodes, links, summary⟩⟩ := inp
  by_cases hv : videos = []
  · subst hv
    by_cases hn : nodes = []
    · subst hn
      by_cases hl : links = []
      · subst hl
        rfl
      · cases links with
        | nil => exact absurd rfl hl
        | cons lk0 links2 =>
          have hshape : exportTLines ts ⟨url, [], ⟨[], lk0 :: links2, summary⟩⟩ =
              TomlLine.kvEmptyArr "videos" :: .header ["meta"] ::
              .kvString "timestamp" ts :: .kvString "url" url ::
              .header ["graph"] :: .kvEmptyArr "nodes" ::
              .kvString "summary" summary :: (lk0 :: links2).flatMap linkTLines := by
            simp [exportTLines, List.append_assoc]
          rw [hshape]
          simp only [parseTomlDoc, takeOptEmptyArr_take, takeOptEmptyArr_header,
            takeOptEmptyArr_kvStr, Option.bind_eq_bind, Option.some_bind, takeKvStr_take]
          have hvb : parseVideoBlocks ((TomlLine.header ["graph"] :: .kvEmptyArr "nodes" ::
              .kvString "summary" summary ::
              (lk0 :: links2).flatMap linkTLines).length + 1)
              (TomlLine.header ["graph"] :: .kvEmptyArr "nodes" ::
               .kvString "summary" summary :: (lk0 :: links2).flatMap linkTLines) =
              some ([], TomlLine.header ["graph"] :: .kvEmptyArr "nodes" ::
                .kvString "summary" summary :: (lk0 :: links2).flatMap linkTLines) := rfl
          rw [hvb]
          simp only [Option.some_bind, takeOptEmptyArr_take, takeOptEmptyArr_kvStr,
            takeKvStr_take]
          have hnb : parseNodeBlocks (((lk0 :: links2).flatMap linkTLines).length + 1)
              ((lk0 :: links2).flatMap linkTLines) =
              some ([], (lk0 :: links2).flatMap linkTLines) := by
            rw [show (lk0 :: links2).flatMap linkTLines =
              TomlLine.arrayHeader ["graph", "links"] :: (.kvString "source" lk0.source ::
                .kvString "target" lk0.target :: .kvInt "value" lk0.value ::
                links2.flatMap linkTLines) from by simp [linkTLines]]
            rfl
          rw [hnb]
          simp only [Option.some_bind]
          have hlb := parseLinkBlocks_run (lk0 :: links2) [] (fun f => rfl)
          simp only [List.append_nil] at hlb
          simp only [Option.bind_eq_bind, Option.some_bind, hlb]
          simp [normGraph]
    · by_cases hl : links = []
      · subst hl
        cases nodes with
        | nil => exact absurd rfl hn
        | cons n0 nodes2 =>
          have hshape : exportTLines ts ⟨url, [], ⟨n0 :: nodes2, [], summary⟩⟩ =
              TomlLine.kvEmptyArr "videos" :: .header ["meta"] ::
              .kvString "timestamp" ts :: .kvString "url" url ::
              .header ["graph"] :: .kvEmptyArr "links" ::
              .kvString "summary" summary :: (n0 :: nodes2).flatMap nodeTLines := by
            simp [exportTLines, List.append_assoc]
          rw [hshape]
          simp only [parseTomlDoc, takeOptEmptyArr_take, takeOptEmptyArr_header,
            takeOptEmptyArr_kvStr, Option.bind_eq_bind, Option.some_bind, takeKvStr_take]
          have hvb : parseVideoBlocks ((TomlLine.header ["graph"] :: .kvEmptyArr "links" ::
              .kvString "summary" summary ::
              (n0 :: nodes2).flatMap nodeTLines).length + 1)
              (TomlLine.header ["graph"] :: .kvEmptyArr "links" ::
               .kvString "summary" summary :: (n0 :: nodes2).flatMap nodeTLines) =
              some ([], TomlLine.header ["graph"] :: .kvEmptyArr "links" ::
                .kvString "summary" summary :: (n0 :: nodes2).flatMap nodeTLines) := rfl
          rw [hvb]
          have hdiff := takeOptEmptyArr_diff "nodes" "links"
            (TomlLine.kvString "summary" summary :: (n0 :: nodes2).flatMap nodeTLines)
            (by decide)
          simp only [Option.some_bind, hdiff, takeOptEmptyArr_take, takeOptEmptyArr_kvStr,
            takeKvStr_take]
          have hnb := parseNodeBlocks_run (n0 :: nodes2) [] (fun f => rfl)
          simp only [List.append_nil] at hnb
          rw [hnb]
          simp [normGraph, parseLinkBlocks]
      · cases nodes with
        | nil => exact absurd rfl hn
        | cons n0 nodes2 =>
        cases links with
        | nil => exact absurd rfl hl
        | cons lk0 links2 =>
          have hshape : exportTLines ts ⟨url, [], ⟨n0 :: nodes2, lk0 :: links2, summary⟩⟩ =
              TomlLine.kvEmptyArr "videos" :: .header ["meta"] ::
              .kvString "timestamp" ts :: .kvString "url" url ::
              .header ["graph"] :: .kvString "summary" summary ::
              ((n0 :: nodes2).flatMap nodeTLines ++ (lk0 :: links2).flatMap linkTLines) := by
            simp [exportTLines, List.append_assoc]
          rw [hshape]
          simp only [parseTomlDoc, takeOptEmptyArr_take, takeOptEmptyArr_header,
            takeOptEmptyArr_kvStr, Option.bind_eq_bind, Option.some_bind, takeKvStr_take]
          have hvb : parseVideoBlocks ((TomlLine.header ["graph"] ::
              .kvString "summary" summary ::
              ((n0 :: nodes2).flatMap nodeTLines ++
               (lk0 :: links2).flatMap linkTLines)).length + 1)
              (TomlLine.header ["graph"] :: .kvString "summary" summary ::
               ((n0 :: nodes2).flatMap nodeTLines ++ (lk0 :: links2).flatMap linkTLines)) =
              some ([], TomlLine.header ["graph"] :: .kvString "summary" summary ::
                ((n0 :: nodes2).flatMap nodeTLines ++ (lk0 :: links2).flatMap linkTLines)) :=
            rfl
          rw [hvb]
          simp only [Option.some_bind, takeOptEmptyArr_kvStr, takeKvStr_take]
          have hnb := parseNodeBlocks_run (n0 :: nodes2) ((lk0 :: links2).flatMap linkTLines)
            (fun f => by
              rw [show (lk0 :: links2).flatMap linkTLines =
                TomlLine.arrayHeader ["graph", "links"] :: (.kvString "source" lk0.source ::
                  .kvString "target" lk0.target :: .kvInt "value" lk0.value ::
                  links2.flatMap linkTLines) from by simp [linkTLines]]
              rfl)
          rw [hnb]
          simp only [Option.some_bind]
          have hlb := parseLinkBlocks_run (lk0 :: links2) [] (fun f => rfl)
          simp only [List.append_nil] at hlb
          simp only [Option.bind_eq_bind, Option.some_bind, hlb]
          simp [normGraph]
  · by_cases hn : nodes = []
    · subst hn
      by_cases hl : links = []
      · subst hl
        have hshape : exportTLines ts ⟨url, videos, ⟨[], [], summary⟩⟩ =
            TomlLine.header ["meta"] :: .kvString "timestamp" ts :: .kvString "url" url ::
            (videos.flatMap videoTLines ++ (TomlLine.header ["graph"] ::
              .kvEmptyArr "nodes" :: .kvEmptyArr "links" ::
              .kvString "summary" summary :: [])) := by
          simp [exportTLines, hv, List.append_assoc]
        rw [hshape]
        simp only [parseTomlDoc, takeOptEmptyArr_take, takeOptEmptyArr_header,
          takeOptEmptyArr_kvStr, Option.bind_eq_bind, Option.some_bind, takeKvStr_take]
        have hvb := parseVideoBlocks_run videos
          (TomlLine.header ["graph"] :: .kvEmptyArr "nodes" :: .kvEmptyArr "links" ::
            .kvString "summary" summary :: []) (fun f => rfl)
          (fun k2 x t he => by simp at he)
        rw [hvb]
        simp only [Option.some_bind, takeOptEmptyArr_take, takeOptEmptyArr_kvStr,
          takeKvStr_take]
        simp [normGraph, parseNodeBlocks, parseLinkBlocks]
      · cases links with
        | nil => exact absurd rfl hl
        | cons lk0 links2 =>
          have hshape : exportTLines ts ⟨url, videos, ⟨[], lk0 :: links2, summary⟩⟩ =
              TomlLine.header ["meta"] :: .kvString "timestamp" ts :: .kvString "url" url ::
              (videos.flatMap videoTLines ++ (TomlLine.header ["graph"] ::
                .kvEmptyArr "nodes" :: .kvString "summary" summary ::
                (lk0 :: links2).flatMap linkTLines)) := by
            simp [exportTLines, hv, List.append_assoc]
          rw [hshape]
          simp only [parseTomlDoc, takeOptEmptyArr_take, takeOptEmptyArr_header,
            takeOptEmptyArr_kvStr, Option.bind_eq_bind, Option.some_bind, takeKvStr_take]
          have hvb := parseVideoBlocks_run videos
            (TomlLine.header ["graph"] :: .kvEmptyArr "nodes" ::
              .kvString "summary" summary :: (lk0 :: links2).flatMap linkTLines)
            (fun f => rfl) (fun k2 x t he => by simp at he)
          rw [hvb]
          simp only [Option.some_bind, takeOptEmptyArr_take, takeOptEmptyArr_kvStr,
            takeKvStr_take]
          have hnb : parseNodeBlocks (((lk0 :: links2).flatMap linkTLines).length + 1)
              ((lk0 :: links2).flatMap linkTLines) =
              some ([], (lk0 :: links2).flatMap linkTLines) := by
            rw [show (lk0 :: links2).flatMap linkTLines =
              TomlLine.arrayHeader ["graph", "links"] :: (.kvString "source" lk0.source ::
                .kvString "target" lk0.target :: .kvInt "value" lk0.value ::
                links2.flatMap linkTLines) from by simp [linkTLines]]
            rfl
          rw [hnb]
          simp only [Option.some_bind]
          have hlb := parseLinkBlocks_run (lk0 :: links2) [] (fun f => rfl)
          simp only [List.append_nil] at hlb
          simp only [Option.bind_eq_bind, Option.some_bind, hlb]
          simp [normGraph]
    · by_cases hl : links = []
      · subst hl
        have hshape : exportTLines ts ⟨url, videos, ⟨nodes, [], summary⟩⟩ =
            TomlLine.header ["meta"] :: .kvString "timestamp" ts :: .kvString "url" url ::
            (videos.flatMap videoTLines ++ (TomlLine.header ["graph"] ::
              .kvEmptyArr "links" :: .kvString "summary" summary ::
              nodes.flatMap nodeTLines)) := by
          simp [exportTLines, hv, hn, List.append_assoc]
        rw [hshape]
        simp only [parseTomlDoc, takeOptEmptyArr_take, takeOptEmptyArr_header,
          takeOptEmptyArr_kvStr, Option.bind_eq_bind, Option.some_bind, takeKvStr_take]
        have hvb := parseVideoBlocks_run videos
          (TomlLine.header ["graph"] :: .kvEmptyArr "links" :: .kvString "summary" summary ::
            nodes.flatMap nodeTLines)
          (fun f => rfl) (fun k2 x t he => by simp at he)
        rw [hvb]
        have hdiff := takeOptEmptyArr_diff "nodes" "links"
          (TomlLine.kvString "summary" summary :: nodes.flatMap nodeTLines) (by decide)
        simp only [Option.some_bind, hdiff, takeOptEmptyArr_take, takeOptEmptyArr_kvStr,
          takeKvStr_take]
        have hnb := parseNodeBlocks_run nodes [] (fun f => rfl)
        simp only [List.append_nil] at hnb
        rw [hnb]
        simp [normGraph, parseLinkBlocks]
      · cases links with
        | nil => exact absurd rfl hl
        | cons lk0 links2 =>
          have hshape : exportTLines ts ⟨url, videos, ⟨nodes, lk0 :: links2, summary⟩⟩ =
              TomlLine.header ["meta"] :: .kvString "timestamp" ts :: .kvString "url" url ::
              (videos.flatMap videoTLines ++ (TomlLine.header ["graph"] ::
                .kvString "summary" summary :: (nodes.flatMap nodeTLines ++
                  (lk0 :: links2).flatMap linkTLines))) := by
            simp [exportTLines, hv, hn, List.append_assoc]
          rw [hshape]
          simp only [parseTomlDoc, takeOptEmptyArr_take, takeOptEmptyArr_header,
            takeOptEmptyArr_kvStr, Option.bind_eq_bind, Option.some_bind, takeKvStr_take]
          have hvb := parseVideoBlocks_run videos
            (TomlLine.header ["graph"] :: .kvString "summary" summary ::
              (nodes.flatMap nodeTLines ++ (lk0 :: links2).flatMap linkTLines))
            (fun f => rfl) (fun k2 x t he => by simp at he)
          rw [hvb]
          simp only [Option.some_bind, takeKvStr_take, takeOptEmptyArr_kvStr]
          have hnb := parseNodeBlocks_run nodes ((lk0 :: links2).flatMap linkTLines)
            (fun f => by
              rw [show (lk0 :: links2).flatMap linkTLines =
                TomlLine.arrayHeader ["graph", "links"] :: (.kvString "source" lk0.source ::
                  .kvString "target" lk0.target :: .kvInt "value" lk0.value ::
                  links2.flatMap linkTLines) from by simp [linkTLines]]
              rfl)
          rw [hnb]
          simp only [Option.some_bind]
          have hlb := parseLinkBlocks_run (lk0 :: links2) [] (fun f => rfl)
          rw [List.append_nil] at hlb
          simp only [Option.bind_eq_bind, Option.some_bind, hlb]
          simp [normGraph]

/-- The export-import round trip at the parse level: the text handleExport
writes parses back to the url, timestamp, videos, and the graph with node
descriptions normalized to present strings. -/
theorem importToml_export (ts : String) (inp : ExportInput) :
    importToml (handleExportText ts inp) =
      some { metaUrl := inp.url, timestamp := ts, videos := inp.videos,
             graph := normGraph inp.graph } := by
  unfold importToml handleExportText
  rw [show (String.mk (joinNlLines (exportTomlLines ts inp))).data =
      joinNlLines (exportTomlLines ts inp) from rfl]
  rw [splitNl_joinNl _ (exportTomlLines_ne_nil ts inp) (exportTomlLines_no_nl ts inp)]
  rw [classifyAll_export]
  exact parseTomlDoc_export ts inp

/-- C4: a dashboard state whose graph has a node without a description does
not round-trip exactly: the importer restores the description as an empty
string, because handleExport writes the falsy-or of the field. -/
theorem c4_roundtrip_counterexample :
    ∃ (ts : String) (inp : ExportInput),
      importToml (handleExportText ts inp) ≠
        some { metaUrl := inp.url
               timestamp := ts
               videos := inp.videos
               graph := inp.graph } := by
  refine ⟨"t",
    { url := "u"
      videos := []
      graph := { nodes := [{ id := "a"
                             group := 1
                             desc := none
                             longDescription := none
                             relevance := 5
                             popularity := 5 }]
                 links := []
                 summary := "s" } }, ?_⟩
  rw [importToml_export]
  decide

/-- C4 (amended): exporting a dashboard state with handleExport and
importing the text with handleImport restores the url, timestamp and video
list exactly, and the graph up to replacing missing node descriptions by
empty strings; when the exported url is nonempty, handleImport stores that
url, the normalized graph and the videos and moves to DASHBOARD. -/
theorem c4_export_import_roundtrip_normalized (ts : String) (inp : ExportInput)
    (st : AppSt) (h : inp.url ≠ "") :
    importToml (handleExportText ts inp) =
      some { metaUrl := inp.url
             timestamp := ts
             videos := inp.videos
             graph := normGraph inp.graph } ∧
    (handleImportApply st (handleExportText ts inp)).url = inp.url ∧
    (handleImportApply st (handleExportText ts inp)).graphData = some (normGraph inp.graph) ∧
    (handleImportApply st (handleExportText ts inp)).videoList = inp.videos ∧
    (handleImportApply st (handleExportText ts inp)).appState = .DASHBOARD := by
  refine ⟨importToml_export ts inp, ?_, ?_, ?_, ?_⟩ <;>
    simp [handleImportApply, importToml_export, h]

/-- C4 witness: the amended round trip at a concrete dashboard state. -/
theorem c4_export_import_roundtrip_normalized_witness :
    (("https://example.com/@c" : String) ≠ "") ∧
    importToml (handleExportText "2024-01-01"
      { url := "https://example.com/@c"
        videos := [{ title := "v1", summary := "s1", url := none, publishDate := none }]
        graph := { nodes := [{ id := "a"
                               group := 1
                               desc := some "d"
                               longDescription := none
                               relevance := 5
                               popularity := 5 }]
                   links := [{ source := "a", target := "a", value := 2 }]
                   summary := "sum" } }) =
      some { metaUrl := "https://example.com/@c"
             timestamp := "2024-01-01"
             videos := [{ title := "v1", summary := "s1", url := none, publishDate := none }]
             graph := normGraph
               { nodes := [{ id := "a"
                             group := 1
                             desc := some "d"
                             longDescription := none
                             relevance := 5
                             popularity := 5 }]
                 links := [{ source := "a", target := "a", value := 2 }]
                 summary := "sum" } } ∧
    (handleImportApply
      { url := ""
        appState := .IDLE
        graphData := none
        videoList := []
        presentationData := none
        error := none
        statusMsg := ""
        progress := 0
        logs := []
        customInstructions := "" }
      (handleExportText "2024-01-01"
        { url := "https://example.com/@c"
          videos := [{ title := "v1", summary := "s1", url := none, publishDate := none }]
          graph := { nodes := [{ id := "a"
                                 group := 1
                                 desc := some "d"
                                 longDescription := none
                                 relevance := 5
                                 popularity := 5 }]
                     links := [{ source := "a", target := "a", value := 2 }]
                     summary := "sum" } })).appState = .DASHBOARD :=
  ⟨by decide,
   (c4_export_import_roundtrip_normalized "2024-01-01"
      { url := "https://example.com/@c"
        videos := [{ title := "v1", summary := "s1", url := none, publishDate := none }]
        graph := { nodes := [{ id := "a"
                               group := 1
                               desc := some "d"
                               longDescription := none
                               relevance := 5
                               popularity := 5 }]
                   links := [{ source := "a", target := "a", value := 2 }]
                   summary := "sum" } }
      { url := ""
        appState := .IDLE
        graphData := none
        videoList := []
        presentationData := none
        error := none
        statusMsg := ""
        progress := 0
        logs := []
        customInstructions := "" }
      (by decide)).1,
   (c4_export_import_roundtrip_normalized "2024-01-01"
      { url := "https://example.com/@c"
        videos := [{ title := "v1", summary := "s1", url := none, publishDate := none }]
        graph := { nodes := [{ id := "a"
                               group := 1
                               desc := some "d"
                               longDescription := none
                               relevance := 5
                               popularity := 5 }]
                   links := [{ source := "a", target := "a", value := 2 }]
                   summary := "sum" } }
      { url := ""
        appState := .IDLE
        graphData := none
        videoList := []
        presentationData := none
        error := none
        statusMsg := ""
        progress := 0
        logs := []
        customInstructions := "" }
      (by decide)).2.2.2.2⟩
